import Mathlib

/-!
# shmipc/rpc: request/response framing, client and server

A shallow embedding of `shmipc/rpc/client.go`, `shmipc/rpc/server.go` and of the
example codec `examples/rpc/shmipc/shared/shared.go`.

* Go strings and byte slices are lists of bytes (`GoString`, `List Byte`).
* The transport (`shmipc.Stream`, its `BufferWriter` / `BufferReader`, and the
  `SessionManager`) is an external collaborator; it is modelled by explicit
  state with a scripted fault oracle, so that every operation can succeed or
  fail.
* `sync.Mutex` is a Boolean; `Lock` on a held mutex never returns, which is
  the outcome `none` of `Client.Call` and `Client.Close`.
* Reflection (`reflect.Type`, `reflect.Method`, `reflect.Value`) is modelled
  by first-order descriptions of types, method sets and dynamic values.
-/

namespace Rpc

/-! ## Bytes, strings, errors -/

abbrev Byte := Fin 256

/-- A Go `string` / `[]byte`: a finite sequence of bytes. -/
abbrev GoString := List Byte

/-- The low eight bits of a number, as a byte (`byte(n)`). -/
def byteOf (n : Nat) : Byte := ⟨n % 256, Nat.mod_lt _ (by decide)⟩

/-- An ASCII string literal of the source, as its bytes. -/
def str (s : String) : GoString := s.toList.map (fun c => byteOf c.toNat)

/-- Go conversion `uint16(n)`. -/
def uint16 (n : Nat) : Nat := n % 65536

/-- Go conversion `uint32(n)`. -/
def uint32 (n : Nat) : Nat := n % 4294967296

/-- Go conversion `uint64(n)`. -/
def uint64 (n : Nat) : Nat := n % 18446744073709551616

/-- Go conversion `int(u)` of a `uint64` on a 64-bit platform. -/
def int (u : Nat) : Int :=
  if u % 18446744073709551616 < 9223372036854775808 then ((u % 18446744073709551616 : Nat) : Int)
  else ((u % 18446744073709551616 : Nat) : Int) - 18446744073709551616

/-- Constant `math.MaxUint32`. -/
def MaxUint32 : Nat := 4294967295

/-- Big-endian value of a byte slice (`binary.BigEndian.UintN` on N/8 bytes). -/
def bigEndian (b : List Byte) : Nat := b.foldl (fun acc x => acc * 256 + x.val) 0

/-- The function `binary.BigEndian.PutUint16` on a two-byte slice. -/
def PutUint16 (v : Nat) : List Byte := [byteOf (v / 256), byteOf v]

/-- The function `binary.BigEndian.Uint16`. -/
def Uint16 (b : List Byte) : Nat := bigEndian (b.take 2)

/-- The function `binary.BigEndian.PutUint32` on a four-byte slice. -/
def PutUint32 (v : Nat) : List Byte :=
  [byteOf (v / 16777216), byteOf (v / 65536), byteOf (v / 256), byteOf v]

/-- The function `binary.BigEndian.Uint32`. -/
def Uint32 (b : List Byte) : Nat := bigEndian (b.take 4)

/-- The function `binary.BigEndian.PutUint64` on an eight-byte slice. -/
def PutUint64 (v : Nat) : List Byte :=
  [byteOf (v / 72057594037927936), byteOf (v / 281474976710656), byteOf (v / 1099511627776),
   byteOf (v / 4294967296), byteOf (v / 16777216), byteOf (v / 65536), byteOf (v / 256), byteOf v]

/-- The function `binary.BigEndian.Uint64`. -/
def Uint64 (b : List Byte) : Nat := bigEndian (b.take 8)

/-- A Go `error` value: the package variable `ErrShutdown`, or an error made by
`errors.New` / `fmt.Errorf` / the transport / a handler, known by its text. -/
inductive GoError where
  | ErrShutdown
  | mk (text : GoString)
  deriving DecidableEq

/-- The method `Error()` of an error value. -/
def GoError.Error : GoError → GoString
  | .ErrShutdown => str "connection is shut down"
  | .mk text => text

/-- The call `errors.New(text)`. -/
def errorsNew (text : GoString) : GoError := .mk text

/-- The call `fmt.Errorf(msg + "%s" + tail, err)`: the text of `err` spliced into the format. -/
def Errorf (msg : String) (err : GoError) (tail : String) : GoError :=
  .mk (str msg ++ err.Error ++ str tail)

/-! ## Transport -/

/-- Modelled from the spec: the leased stream of the external transport (§6,
`Stream.Writer()` / `Stream.Reader()`), one endpoint of it.

* `recvBuf`: bytes delivered by the peer and not yet consumed by `ReadBytes`;
* `sendBuf`: bytes written through the `BufferWriter` and not yet flushed;
* `sent`: bytes flushed to the peer, `flushes` counts the successful flushes;
* `fault k`: the error, if any, with which the `k`-th operation on the stream
  fails; `ops` counts the operations performed so far;
* `peer`: what the remote side delivers in answer to flushed bytes. -/
structure Stream where
  id : Nat
  recvBuf : List Byte
  sendBuf : List Byte
  sent : List Byte
  flushes : Nat
  fault : Nat → Option GoError
  ops : Nat
  peer : List Byte → List Byte

/-- The transport error of a read that the peer never satisfies. -/
def errEndOfStream : GoError := .mk (str "end of stream")

/-- Account for one more transport operation. -/
def Stream.tick (s : Stream) : Stream := { s with ops := s.ops + 1 }

/-- Overwrite the bytes of a reserved slice at offset `off` of the write buffer. -/
def Stream.fill (s : Stream) (off : Nat) (data : List Byte) : Stream :=
  { s with sendBuf := s.sendBuf.take off ++ data ++ s.sendBuf.drop (off + data.length) }

/-- Modelled from the spec: `BufferWriter.Reserve(n)` appends `n` bytes to the
write buffer and returns the slice, here its offset, for the caller to fill. -/
def Stream.Reserve (s : Stream) (n : Nat) : Except GoError Nat × Stream :=
  match s.fault s.ops with
  | some e => (.error e, s.tick)
  | none => (.ok s.sendBuf.length, { s.tick with sendBuf := s.sendBuf ++ List.replicate n 0 })

/-- Modelled from the spec: `BufferWriter.WriteBytes(data)`. -/
def Stream.WriteBytes (s : Stream) (data : List Byte) : Option GoError × Stream :=
  match s.fault s.ops with
  | some e => (some e, s.tick)
  | none => (none, { s.tick with sendBuf := s.sendBuf ++ data })

/-- Modelled from the spec: `BufferWriter.WriteString(str)`. -/
def Stream.WriteString (s : Stream) (data : GoString) : Option GoError × Stream :=
  s.WriteBytes data

/-- Modelled from the spec: `Stream.Flush(false)` hands the write buffer to the
peer; what the peer answers becomes readable. -/
def Stream.Flush (s : Stream) : Option GoError × Stream :=
  match s.fault s.ops with
  | some e => (some e, s.tick)
  | none =>
    (none, { s.tick with
               sent := s.sent ++ s.sendBuf, sendBuf := [], flushes := s.flushes + 1,
               recvBuf := s.recvBuf ++ s.peer s.sendBuf })

/-- Modelled from the spec: `BufferReader.ReadBytes(size)`. A size that is not
positive reads nothing. `recvBuf` holds all that the peer delivers before it
closes its end of the stream, so a read of more bytes than that fails with the
end-of-stream error of the transport; while the peer keeps the stream open the
read of the transport would block instead of failing. -/
def Stream.ReadBytes (s : Stream) (size : Int) : Except GoError (List Byte) × Stream :=
  match s.fault s.ops with
  | some e => (.error e, s.tick)
  | none =>
    if size ≤ 0 then (.ok [], s.tick)
    else if size.toNat ≤ s.recvBuf.length then
      (.ok (s.recvBuf.take size.toNat), { s.tick with recvBuf := s.recvBuf.drop size.toNat })
    else (.error errEndOfStream, s.tick)

/-- What the session manager was asked to do, in order. -/
inductive SmgrEvent where
  | GetStream
  | PutBack (id : Nat)
  | Close
  deriving DecidableEq

/-- Modelled from the spec: the session manager of the external transport (§6,
`AcquireStream` / `ReleaseStream`). `getStream k` is the outcome of the `k`-th
lease, `closeErr` the result of `Close`, `log` the requests made so far. -/
structure SessionManager where
  getStream : Nat → Except GoError Stream
  closeErr : Option GoError
  log : List SmgrEvent

/-- The call `smgr.GetStream()`. -/
def SessionManager.GetStream (m : SessionManager) : Except GoError Stream × SessionManager :=
  (m.getStream (m.log.count .GetStream), { m with log := m.log ++ [.GetStream] })

/-- The call `smgr.PutBack(stream)`. -/
def SessionManager.PutBack (m : SessionManager) (s : Stream) : SessionManager :=
  { m with log := m.log ++ [.PutBack s.id] }

/-- The call `smgr.Close()`. -/
def SessionManager.Close (m : SessionManager) : Option GoError × SessionManager :=
  (m.closeErr, { m with log := m.log ++ [.Close] })

/-! ## client.go -/

/-- The interface `ShmWriter`: a value that encodes itself into a `BufferWriter`. -/
structure ShmWriter where
  WriteToShm : Stream → Option GoError × Stream

/-- The interface `ShmReader`, for values of type `ρ` behind a pointer: decoding
from a `BufferReader` updates the value. -/
structure ShmReader (ρ : Type) where
  ReadFromShm : ρ → Stream → Option GoError × ρ × Stream

/-- The struct `Client`; `mutex` is `true` while the lock is held. -/
structure Client where
  smgr : SessionManager
  mutex : Bool
  closing : Bool
  shutdown : Bool

/-- The function `NewClient`, given the result of `shmipc.NewSessionManager(conf)`. -/
def NewClient (res : Except GoError SessionManager) : Except GoError Client :=
  match res with
  | .error err => .error (Errorf "rpc: can't create client: " err "")
  | .ok smgr => .ok { smgr := smgr, mutex := false, closing := false, shutdown := false }

/-- The method `Client.Close`. `none`: `client.mutex.Lock()` never returns. -/
def Client.Close (client : Client) : Option (Option GoError × Client) :=
  if client.mutex then none
  else
    let client := { client with mutex := true }
    if client.closing then
      let client := { client with mutex := false }
      some (some .ErrShutdown, client)
    else
      let client := { client with closing := true }
      let client := { client with mutex := false }
      let (err, smgr) := client.smgr.Close
      some (err, { client with smgr := smgr })

/-- Lines 85-102 of `Client.Call`: write the request frame and flush it. -/
def Client.Call.writeRequest (stream : Stream) (serviceMethod : GoString) (args : ShmWriter) :
    Option GoError × Stream :=
  match stream.Reserve 2 with
  | (.error err, stream) => (some (Errorf "rpc: can't write service method len: " err ""), stream)
  | (.ok data, stream) =>
    let stream := stream.fill data (PutUint16 (uint16 serviceMethod.length))
    match stream.WriteString serviceMethod with
    | (some err, stream) => (some (Errorf "rpc: can't write service method: " err ""), stream)
    | (none, stream) =>
      match args.WriteToShm stream with
      | (some err, stream) => (some (Errorf "rpc: can't write to shared memory: " err ""), stream)
      | (none, stream) =>
        match stream.Flush with
        | (some err, stream) => (some (Errorf "rpc: can't flush request to peer: " err ""), stream)
        | (none, stream) => (none, stream)

/-- Lines 104-124 of `Client.Call`: read the response frame. -/
def Client.Call.readResponse {ρ : Type} (stream : Stream) (R : ShmReader ρ) (reply : ρ) :
    Option GoError × ρ × Stream :=
  match stream.ReadBytes 4 with
  | (.error err, stream) => (some (Errorf "rpc: can't read error message's len: " err ""), reply, stream)
  | (.ok data, stream) =>
    let errmsgLen := Uint32 data
    if errmsgLen > 0 then
      match stream.ReadBytes (int errmsgLen) with
      | (.error err, stream) => (some (Errorf "rpc: can't read error message: " err ""), reply, stream)
      | (.ok data, stream) => (some (errorsNew data), reply, stream)
    else
      match R.ReadFromShm reply stream with
      | (some err, reply, stream) =>
        (some (Errorf "rpc: can't read from shared memory: " err ""), reply, stream)
      | (none, reply, stream) => (none, reply, stream)

/-- What a returned `Client.Call` leaves behind: the returned error, the reply
value, the client, and the leased stream as it was when the call returned
(`none` when no stream was leased). -/
structure CallResult (ρ : Type) where
  err : Option GoError
  reply : ρ
  client : Client
  stream : Option Stream

/-- The method `Client.Call`. `none`: `client.mutex.Lock()` never returns.
The deferred `PutBack` runs when the body after a successful `GetStream` returns. -/
def Client.Call {ρ : Type} (client : Client) (serviceMethod : GoString) (args : ShmWriter)
    (R : ShmReader ρ) (reply : ρ) : Option (CallResult ρ) :=
  if client.mutex then none
  else
    let client := { client with mutex := true }
    if client.shutdown || client.closing then
      let client := { client with mutex := false }
      some { err := some .ErrShutdown, reply := reply, client := client, stream := none }
    else
      match client.smgr.GetStream with
      | (.error err, smgr) =>
        some { err := some (Errorf "rpc: can't get stream: " err ""), reply := reply,
               client := { client with smgr := smgr }, stream := none }
      | (.ok stream, smgr) =>
        -- defer client.smgr.PutBack(stream): the argument is the stream as leased
        let leased := stream
        match Client.Call.writeRequest stream serviceMethod args with
        | (some err, stream) =>
          some { err := some err, reply := reply,
                 client := { client with smgr := smgr.PutBack leased }, stream := some stream }
        | (none, stream) =>
          match Client.Call.readResponse stream R reply with
          | (err, reply, stream) =>
            some { err := err, reply := reply,
                   client := { client with smgr := smgr.PutBack leased }, stream := some stream }

/-! ## server.go: reflection -/

/-- A `reflect.Type`, as far as the server looks at it: a named type with its
name (`Name()`) and its qualified name (`String()`), or a pointer type. -/
inductive GoType where
  | named (Name : GoString) (String : GoString)
  | pointer (Elem : GoType)
  deriving DecidableEq

/-- Whether `t.Kind() == reflect.Pointer`. -/
def GoType.isPointer : GoType → Bool
  | .named _ _ => false
  | .pointer _ => true

/-- The method `t.Name()`: empty for a pointer type. -/
def GoType.Name : GoType → GoString
  | .named n _ => n
  | .pointer _ => []

/-- The method `t.String()`. -/
def GoType.String : GoType → GoString
  | .named _ s => s
  | .pointer e => str "*" ++ e.String

/-- The method `t.Elem()` of a pointer type. -/
def GoType.Elem : GoType → GoType
  | .named n s => .named n s
  | .pointer e => e

/-- The type of `reflect.Indirect(v)` for a value of type `t`. -/
def GoType.Indirect (t : GoType) : GoType :=
  if t.isPointer then t.Elem else t

/-- The variable `typeOfError`. -/
def typeOfError : GoType := .named (str "error") (str "error")

/-- A `reflect.Method` of a method set: its name, whether it is exported, the
input types (receiver first) and output types of its signature, and its
function: from receiver, argument and reply to the returned error and the
reply value after the call. -/
structure Method (V : Type) where
  Name : GoString
  IsExported : Bool
  In : List GoType
  Out : List GoType
  Func : V → V → V → Option GoError × V

/-- What the Go runtime and library answer about dynamic values of type `V`
(`reflect.Value`) and their types:
`token.IsExported`, `reflect.TypeOf`, the method set of a type
(`NumMethod` / `Method`), `Type.Implements(typeOfShmReadWriter)`, `reflect.New`,
`Value.Elem`, and the dynamically dispatched `ReadFromShm` / `WriteToShm`. -/
structure Reflect (V : Type) where
  IsExported : GoString → Bool
  TypeOf : V → GoType
  Methods : GoType → List (Method V)
  Implements : GoType → Bool
  New : GoType → V
  Elem : V → V
  ReadFromShm : V → Stream → Option GoError × V × Stream
  WriteToShm : V → Stream → Option GoError × Stream

/-- A Go `map[string]T`, as an association list with distinct keys. -/
abbrev GoMap (β : Type) := List (GoString × β)

/-- The lookup `m[k]`. -/
def GoMap.get {β : Type} (m : GoMap β) (k : GoString) : Option β := List.lookup k m

/-- The assignment `m[k] = v`. -/
def GoMap.set {β : Type} (m : GoMap β) (k : GoString) (v : β) : GoMap β :=
  (k, v) :: m.filter (fun kv => kv.1 != k)

/-- The struct `methodType`. -/
structure methodType (V : Type) where
  method : Method V
  ArgType : GoType
  ReplyType : GoType

/-- The struct `service`. -/
structure service (V : Type) where
  name : GoString
  rcvr : V
  typ : GoType
  method : GoMap (methodType V)

/-- The struct `Server`: its registry (`conf` is only read by `ServeConn`). -/
structure Server (V : Type) where
  serviceMap : GoMap (service V)

/-- The function `NewServer`. -/
def NewServer (V : Type) : Server V := { serviceMap := [] }

/-- The function `isExported`. -/
def isExported {V : Type} (R : Reflect V) : GoType → Bool
  | .named n _ => R.IsExported n
  | .pointer e => isExported R e

/-- One iteration of the loop of `suitableMethods` (diagnostics are only logged). -/
def suitableMethods.step {V : Type} (R : Reflect V) (methods : GoMap (methodType V))
    (method : Method V) : GoMap (methodType V) :=
  -- Method must be exported.
  if !method.IsExported then methods
  else
    -- Method needs three ins: receiver, *args, *reply.
    match method.In with
    | [_, argType, replyType] =>
      if !isExported R argType then methods
      else if !R.Implements argType then methods
      else if !replyType.isPointer then methods
      else if !isExported R replyType then methods
      else if !R.Implements replyType then methods
      else
        -- Method needs one out, of type error.
        match method.Out with
        | [returnType] =>
          if returnType != typeOfError then methods
          else methods.set method.Name { method := method, ArgType := argType, ReplyType := replyType }
        | _ => methods
    | _ => methods

/-- The function `suitableMethods`. -/
def suitableMethods {V : Type} (R : Reflect V) (typ : GoType) : GoMap (methodType V) :=
  (R.Methods typ).foldl (suitableMethods.step R) []

/-- The method `Server.register`. -/
def Server.register {V : Type} (R : Reflect V) (server : Server V) (rcvr : V) (name : GoString)
    (useName : Bool) : Option GoError × Server V :=
  let typ := R.TypeOf rcvr
  let sname := if !useName then typ.Indirect.Name else name
  if sname = [] then
    (some (errorsNew (str "rpc.Register: no service name for type " ++ typ.String)), server)
  else if !useName && !R.IsExported sname then
    (some (errorsNew (str "rpc.Register: type " ++ sname ++ str " is not exported")), server)
  else
    let s : service V := { name := sname, rcvr := rcvr, typ := typ, method := suitableMethods R typ }
    if s.method.length = 0 then
      -- To help the user, see if a pointer receiver would work.
      let method := suitableMethods R (.pointer typ)
      if method.length ≠ 0 then
        (some (errorsNew (str "rpc.Register: type " ++ sname ++
          str " has no exported methods of suitable type (hint: pass a pointer to value of that type)")),
          server)
      else
        (some (errorsNew (str "rpc.Register: type " ++ sname ++
          str " has no exported methods of suitable type")), server)
    else
      -- serviceMap.LoadOrStore(sname, s)
      match server.serviceMap.get sname with
      | some _ => (some (errorsNew (str "rpc: service already defined: " ++ sname)), server)
      | none => (none, { server with serviceMap := server.serviceMap.set sname s })

/-- The method `Server.Register`. -/
def Server.Register {V : Type} (R : Reflect V) (server : Server V) (rcvr : V) :
    Option GoError × Server V :=
  server.register R rcvr [] false

/-- The method `Server.RegisterName`. -/
def Server.RegisterName {V : Type} (R : Reflect V) (server : Server V) (name : GoString)
    (rcvr : V) : Option GoError × Server V :=
  server.register R rcvr name true

/-! ## server.go: serving one stream -/

/-- The call `strings.LastIndex(s, sep)` for a one-byte separator: the index of
the last occurrence of the byte, or `-1`. -/
def LastIndex (s : GoString) (sep : Byte) : Int :=
  match s with
  | [] => -1
  | x :: xs =>
    let r := LastIndex xs sep
    if r ≥ 0 then r + 1 else if x = sep then 0 else -1

/-- The byte of the separator `"."`. -/
def dotByte : Byte := 46

/-- Lines 277-289 of `Server.readRequest`: read the method identifier. -/
def Server.readRequest.serviceMethod (r : Stream) : Except GoError GoString × Stream :=
  match r.ReadBytes 2 with
  | (.error err, r) => (.error (Errorf "rpc: error read service method's len: " err ""), r)
  | (.ok data, r) =>
    let serviceMethodLen := Uint16 data
    match r.ReadBytes (serviceMethodLen : Nat) with
    | (.error err, r) => (.error (Errorf "rpc: error read service method: " err ""), r)
    | (.ok data, r) => (.ok data, r)

/-- The method `Server.readRequest`. On success it returns `svc`, `mtype`, `argv`
and `replyv`; on every error return `replyv` is still the zero `reflect.Value`,
so only `err` is kept. -/
def Server.readRequest {V : Type} (R : Reflect V) (server : Server V) (r : Stream) :
    Except GoError (service V × methodType V × V × V) × Stream :=
  match Server.readRequest.serviceMethod r with
  | (.error err, r) => (.error err, r)
  | (.ok serviceMethod, r) =>
    let dot := LastIndex serviceMethod dotByte
    if dot < 0 then
      (.error (errorsNew (str "rpc: service/method request ill-formed: " ++ serviceMethod)), r)
    else
      let serviceName := serviceMethod.take dot.toNat
      let methodName := serviceMethod.drop (dot + 1).toNat
      -- Look up the request.
      match server.serviceMap.get serviceName with
      | none => (.error (errorsNew (str "rpc: can't find service " ++ serviceMethod)), r)
      | some svc =>
        match svc.method.get methodName with
        | none => (.error (errorsNew (str "rpc: can't find method " ++ serviceMethod)), r)
        | some mtype =>
          -- Decode the argument value.
          let argIsValue := !mtype.ArgType.isPointer
          let argv := if mtype.ArgType.isPointer then R.New mtype.ArgType.Elem else R.New mtype.ArgType
          match R.ReadFromShm argv r with
          | (some erri, _, r) => (.error (Errorf "rpc: can't read from shared memory: " erri " "), r)
          | (none, argv, r) =>
            let argv := if argIsValue then R.Elem argv else argv
            let replyv := R.New mtype.ReplyType.Elem
            (.ok (svc, mtype, argv, replyv), r)

/-- The panic of `MethodByName` on the zero `reflect.Value`, kept as an error value. -/
def panicZeroValue : GoError := .mk (str "reflect: call of reflect.Value.MethodByName on zero Value")

/-- The method `Server.sendResponse`; `replyv = none` is the zero `reflect.Value`. -/
def Server.sendResponse {V : Type} (R : Reflect V) (stream : Stream) (replyv : Option V)
    (errmsg : GoString) : Option GoError × Stream :=
  let w := stream
  let errmsgBytes := errmsg
  let errmsgBytes := if errmsgBytes.length > MaxUint32 then errmsgBytes.take MaxUint32 else errmsgBytes
  let errmsgLen := errmsgBytes.length
  match w.Reserve 4 with
  | (.error err, w) => (some (Errorf "rpc: can't write error message's len: " err " "), w)
  | (.ok data, w) =>
    let w := w.fill data (PutUint32 (uint32 errmsgLen))
    if errmsgLen > 0 then
      match w.WriteBytes errmsgBytes with
      | (some err, w) => (some (Errorf "rpc: can't write error message: " err " "), w)
      | (none, w) => (none, w)
    else
      match replyv with
      | none => (some panicZeroValue, w)
      | some replyv =>
        match R.WriteToShm replyv w with
        | (some erri, w) => (some (Errorf "rpc: can't write to shared memory: " erri " "), w)
        | (none, w) =>
          match w.Flush with
          | (some err, w) => (some (Errorf "rpc: can't flush response to peer: " err ""), w)
          | (none, w) => (none, w)

/-- The method `service.call`; the error of `sendResponse` is only logged. -/
def service.call {V : Type} (R : Reflect V) (s : service V) (stream : Stream)
    (mtype : methodType V) (argv replyv : V) : Stream :=
  -- Invoke the method, providing a new value for the reply.
  match mtype.method.Func s.rcvr argv replyv with
  | (erri, replyv) =>
    -- The return value for the method is an error.
    let errmsg := match erri with
      | some e => e.Error
      | none => []
    (Server.sendResponse R stream (some replyv) errmsg).2

/-- The method `Server.ServeStream`; the error of `sendResponse` is only logged. -/
def Server.ServeStream {V : Type} (R : Reflect V) (server : Server V) (stream : Stream) : Stream :=
  match server.readRequest R stream with
  | (.error err, stream) => (Server.sendResponse R stream none err.Error).2
  | (.ok (service, mtype, argv, replyv), stream) => service.call R stream mtype argv replyv

/-! ## examples/rpc/shmipc: the Ping service -/

/-- The struct `PingRequest`. -/
structure PingRequest where
  Data : List Byte

/-- The struct `PingResponse`. -/
structure PingResponse where
  Data : List Byte

/-- The method `PingRequest.WriteToShm`. -/
def PingRequest.WriteToShm (r : PingRequest) (writer : Stream) : Option GoError × Stream :=
  match writer.Reserve 8 with
  | (.error err, writer) => (some err, writer)
  | (.ok data, writer) =>
    let writer := writer.fill data (PutUint64 (uint64 r.Data.length))
    writer.WriteBytes r.Data

/-- The method `PingRequest.ReadFromShm`. -/
def PingRequest.ReadFromShm (r : PingRequest) (reader : Stream) :
    Option GoError × PingRequest × Stream :=
  match reader.ReadBytes 8 with
  | (.error err, reader) => (some err, r, reader)
  | (.ok data, reader) =>
    match reader.ReadBytes (int (Uint64 data)) with
    | (.error err, reader) => (some err, { r with Data := [] }, reader)
    | (.ok data, reader) => (none, { r with Data := data }, reader)

/-- The method `PingResponse.WriteToShm`. -/
def PingResponse.WriteToShm (r : PingResponse) (writer : Stream) : Option GoError × Stream :=
  match writer.Reserve 8 with
  | (.error err, writer) => (some err, writer)
  | (.ok data, writer) =>
    let writer := writer.fill data (PutUint64 (uint64 r.Data.length))
    writer.WriteBytes r.Data

/-- The method `PingResponse.ReadFromShm`. -/
def PingResponse.ReadFromShm (r : PingResponse) (reader : Stream) :
    Option GoError × PingResponse × Stream :=
  match reader.ReadBytes 8 with
  | (.error err, reader) => (some err, r, reader)
  | (.ok data, reader) =>
    match reader.ReadBytes (int (Uint64 data)) with
    | (.error err, reader) => (some err, { r with Data := [] }, reader)
    | (.ok data, reader) => (none, { r with Data := data }, reader)

/-- The dynamic values of the example: the receiver `&Service{}`, a
`*PingRequest`, a `*PingResponse`. -/
inductive PingValue where
  | Service
  | Request (req : PingRequest)
  | Response (resp : PingResponse)

/-- The type `main.Service`. -/
def typeService : GoType := .named (str "Service") (str "main.Service")

/-- The type `shared.PingRequest`. -/
def typePingRequest : GoType := .named (str "PingRequest") (str "shared.PingRequest")

/-- The type `shared.PingResponse`. -/
def typePingResponse : GoType := .named (str "PingResponse") (str "shared.PingResponse")

/-- The method `Service.Ping`: `resp.Data = req.Data; return nil`. -/
def Service.Ping (req : PingRequest) (resp : PingResponse) : Option GoError × PingResponse :=
  (none, { resp with Data := req.Data })

/-- The entry of `Ping` in the method set of `*Service`. -/
def methodPing : Method PingValue :=
  { Name := str "Ping"
    IsExported := true
    In := [.pointer typeService, .pointer typePingRequest, .pointer typePingResponse]
    Out := [typeOfError]
    Func := fun _ argv replyv =>
      match argv, replyv with
      | .Request req, .Response resp =>
        match Service.Ping req resp with
        | (err, resp) => (err, .Response resp)
      | _, _ => (none, replyv) }

/-- The function `token.IsExported` on a name that starts with an ASCII byte:
whether that byte is an upper-case letter. -/
def asciiIsExported (name : GoString) : Bool :=
  match name with
  | [] => false
  | c :: _ => decide (65 ≤ c.val ∧ c.val ≤ 90)

/-- The runtime of the example programs. -/
def pingReflect : Reflect PingValue :=
  { IsExported := asciiIsExported
    TypeOf := fun v =>
      match v with
      | .Service => .pointer typeService
      | .Request _ => .pointer typePingRequest
      | .Response _ => .pointer typePingResponse
    Methods := fun t => if t = .pointer typeService then [methodPing] else []
    Implements := fun t => decide (t = .pointer typePingRequest ∨ t = .pointer typePingResponse)
    New := fun t => if t = typePingRequest then .Request { Data := [] } else .Response { Data := [] }
    Elem := fun v => v
    ReadFromShm := fun v r =>
      match v with
      | .Request req =>
        match req.ReadFromShm r with
        | (err, req, r) => (err, .Request req, r)
      | .Response resp =>
        match resp.ReadFromShm r with
        | (err, resp, r) => (err, .Response resp, r)
      | .Service => (none, v, r)
    WriteToShm := fun v w =>
      match v with
      | .Request req => req.WriteToShm w
      | .Response resp => resp.WriteToShm w
      | .Service => (none, w) }

/-- The server of `examples/rpc/shmipc/server`: `server.Register(&Service{})`. -/
def pingServer : Server PingValue := (Server.Register pingReflect (NewServer PingValue) .Service).2

/-- The argument `&shared.PingRequest{Data: d}` as a `ShmWriter`. -/
def pingArgs (d : List Byte) : ShmWriter := { WriteToShm := PingRequest.WriteToShm { Data := d } }

/-- The reply `&reply` of type `*shared.PingResponse` as a `ShmReader`. -/
def pingReply : ShmReader PingResponse := { ReadFromShm := PingResponse.ReadFromShm }

/-! ## Harness: a server behind a stream, a client in front of it -/

/-- The server end of a stream on which the peer has delivered `req`; every
transport operation on it succeeds. -/
def serverStream (req : List Byte) : Stream :=
  { id := 0, recvBuf := req, sendBuf := [], sent := [], flushes := 0,
    fault := fun _ => none, ops := 0, peer := fun _ => [] }

/-- The remote side of a client stream: the server serves the flushed request
on its end of the stream; what it flushes is delivered back. -/
def remote {V : Type} (R : Reflect V) (server : Server V) (req : List Byte) : List Byte :=
  (server.ServeStream R (serverStream req)).sent

/-- A fresh client stream on which every transport operation succeeds. -/
def clientStream (id : Nat) (peer : List Byte → List Byte) : Stream :=
  { id := id, recvBuf := [], sendBuf := [], sent := [], flushes := 0,
    fault := fun _ => none, ops := 0, peer := peer }

/-- A session manager whose `k`-th lease is the fresh stream `k` to `peer`. -/
def echoSmgr (peer : List Byte → List Byte) : SessionManager :=
  { getStream := fun k => .ok (clientStream k peer), closeErr := none, log := [] }

/-- The client of `examples/rpc/shmipc`, freshly created, connected to `pingServer`. -/
def echoClient : Client :=
  { smgr := echoSmgr (remote pingReflect pingServer), mutex := false, closing := false,
    shutdown := false }

/-- The identifier `"Service.Ping"`. -/
def servicePing : GoString := str "Service.Ping"

/-- The entry of `Ping` in the method table of the registered example service. -/
def mtypePing : methodType PingValue :=
  { method := methodPing, ArgType := .pointer typePingRequest, ReplyType := .pointer typePingResponse }

/-- The service that `server.Register(&Service{})` stores. -/
def pingService : service PingValue :=
  { name := str "Service", rcvr := .Service, typ := .pointer typeService,
    method := [(str "Ping", mtypePing)] }

/-- A handler with the signature of `Ping` that fails with an empty message:
`func (s *Service) Fail(req *PingRequest, resp *PingResponse) error { return errors.New("") }`. -/
def methodFail : Method PingValue :=
  { Name := str "Fail"
    IsExported := true
    In := [.pointer typeService, .pointer typePingRequest, .pointer typePingResponse]
    Out := [typeOfError]
    Func := fun _ _ replyv => (some (errorsNew []), replyv) }

/-- The runtime of a program whose `*Service` has the method `Fail` only. -/
def failReflect : Reflect PingValue :=
  { pingReflect with Methods := fun t => if t = .pointer typeService then [methodFail] else [] }

/-- The server of that program after `server.Register(&Service{})`. -/
def failServer : Server PingValue := (Server.Register failReflect (NewServer PingValue) .Service).2

/-- A freshly created client connected to `failServer`. -/
def failClient : Client :=
  { smgr := echoSmgr (remote failReflect failServer), mutex := false, closing := false,
    shutdown := false }

/-- The client of the example after its owner has called `Close`. -/
def closedEchoClient : Client :=
  { smgr := { getStream := fun k => .ok (clientStream k (remote pingReflect pingServer)),
              closeErr := none, log := [.Close] },
    mutex := false, closing := true, shutdown := false }

/-- The request frame of the wire protocol, as `Call` writes it:
`[u16 method-name length][method-name bytes][argument payload]`. -/
def requestFrame (serviceMethod : GoString) (payload : List Byte) : List Byte :=
  PutUint16 (uint16 serviceMethod.length) ++ serviceMethod ++ payload

/-- A client stream on which the peer has delivered `resp`; every transport
operation on it succeeds. -/
def answeredStream (resp : List Byte) : Stream :=
  { id := 0, recvBuf := resp, sendBuf := [], sent := [], flushes := 0,
    fault := fun _ => none, ops := 0, peer := fun _ => [] }

/-- A handler with the signature of `Ping` that fails with the message "boom":
`func (s *Service) Boom(req *PingRequest, resp *PingResponse) error { return errors.New("boom") }`,
as an entry of a method table. -/
def mtypeBoom : methodType PingValue :=
  { method :=
      { Name := str "Boom"
        IsExported := true
        In := [.pointer typeService, .pointer typePingRequest, .pointer typePingResponse]
        Out := [typeOfError]
        Func := fun _ _ replyv => (some (errorsNew (str "boom")), replyv) }
    ArgType := .pointer typePingRequest
    ReplyType := .pointer typePingResponse }

/-- A response sits in the write buffer and nothing was flushed to the peer. -/
def Stream.unflushed (s : Stream) : Bool :=
  !s.sendBuf.isEmpty && s.flushes == 0 && s.sent.isEmpty

/-- The type `main.service`, whose name is not exported. -/
def typeLowerService : GoType := .named (str "service") (str "main.service")

/-- The runtime of a program that declares the receiver type as `service`:
`type service struct{}` with the method `Ping` of the example on `*service`. -/
def lowerReflect : Reflect PingValue :=
  { pingReflect with
    TypeOf := fun v =>
      match v with
      | .Service => .pointer typeLowerService
      | .Request _ => .pointer typePingRequest
      | .Response _ => .pointer typePingResponse
    Methods := fun t => if t = .pointer typeLowerService then [methodPing] else [] }

/-- The server of the example after `server.RegisterName("pkg.Service", &Service{})`. -/
def dottedServer : Server PingValue :=
  (Server.RegisterName pingReflect (NewServer PingValue) (str "pkg.Service") .Service).2

/-- The service that `RegisterName("pkg.Service", &Service{})` stores. -/
def dottedService : service PingValue :=
  { name := str "pkg.Service", rcvr := .Service, typ := .pointer typeService,
    method := [(str "Ping", mtypePing)] }

/-! ## Vocabulary of the statements -/

/-- Every transport operation on the stream succeeds. -/
def Stream.reliable (s : Stream) : Prop := ∀ k, s.fault k = none

/-- On a stream whose operations succeed, `args.WriteToShm` succeeds and its
effect is to append the payload `p` to the write buffer. -/
def Encodes (args : ShmWriter) (p : List Byte) : Prop :=
  ∀ s : Stream, s.reliable →
    ∃ n, args.WriteToShm s = (none, { s with sendBuf := s.sendBuf ++ p, ops := s.ops + n })

/-- One use of a client by its owner: a `Close`, or a `Call` with its arguments. -/
inductive ClientOp : Type 1 where
  | Close
  | Call (ρ : Type) (serviceMethod : GoString) (args : ShmWriter) (R : ShmReader ρ) (reply : ρ)

/-- The client after one use that returns; `none` when the use never returns. -/
def Client.step (c : Client) : ClientOp → Option Client
  | .Close => c.Close.map (fun r => r.2)
  | .Call _ serviceMethod args R reply => (c.Call serviceMethod args R reply).map (fun r => r.client)

/-- The client after a sequence of uses, each started when the one before has returned. -/
def Client.run (c : Client) : List ClientOp → Option Client
  | [] => some c
  | op :: ops => (c.step op).bind (fun c => c.run ops)

/-- What holds of a client between the uses its owner makes of it: the shutdown
flag is never set, and once `closing` is set the lock is free. -/
def Client.settled (c : Client) : Prop :=
  c.shutdown = false ∧ (c.closing = true → c.mutex = false)

/-- The error text that `sendResponse` puts on the wire. -/
def wireText (errmsg : GoString) : GoString :=
  if errmsg.length > MaxUint32 then errmsg.take MaxUint32 else errmsg

/-! ## Encoding and transport lemmas -/

theorem Uint16_PutUint16 (v : Nat) : Uint16 (PutUint16 v) = v % 65536 := by
  simp [Uint16, PutUint16, bigEndian, byteOf]; omega

theorem Uint32_PutUint32 (v : Nat) : Uint32 (PutUint32 v) = v % 4294967296 := by
  simp [Uint32, PutUint32, bigEndian, byteOf]; omega

theorem Uint64_PutUint64 (v : Nat) : Uint64 (PutUint64 v) = v % 18446744073709551616 := by
  simp [Uint64, PutUint64, bigEndian, byteOf]; omega

theorem ReadBytes_ok (s : Stream) (n : Nat) (hf : s.fault s.ops = none)
    (hn : n ≤ s.recvBuf.length) :
    s.ReadBytes (n : Int) =
      (.ok (s.recvBuf.take n), { s with recvBuf := s.recvBuf.drop n, ops := s.ops + 1 }) := by
  unfold Stream.ReadBytes
  rw [hf]
  rcases Nat.eq_zero_or_pos n with h0 | hpos
  · subst h0; simp [Stream.tick]
  · have : ¬ ((n : Int) ≤ 0) := by omega
    simp [this, hn, Stream.tick]

theorem int_small (n : Nat) (h : n < 9223372036854775808) : int n = (n : Int) := by
  have : n % 18446744073709551616 = n := Nat.mod_eq_of_lt (by omega)
  simp [int, this, h]

theorem pingServer_serviceMap : pingServer.serviceMap = [(str "Service", pingService)] := by
  rfl

theorem PingRequest_WriteToShm_ok (req : PingRequest) (w : Stream) (hw : w.reliable) :
    req.WriteToShm w =
      (none, { w with sendBuf := w.sendBuf ++ (PutUint64 (uint64 req.Data.length) ++ req.Data),
                      ops := w.ops + 2 }) := by
  have hw' : ∀ k, w.fault k = none := hw
  simp [PingRequest.WriteToShm, Stream.Reserve, Stream.fill, Stream.tick, Stream.WriteBytes, hw',
    PutUint64]

theorem PingResponse_WriteToShm_ok (resp : PingResponse) (w : Stream) (hw : w.reliable) :
    resp.WriteToShm w =
      (none, { w with sendBuf := w.sendBuf ++ (PutUint64 (uint64 resp.Data.length) ++ resp.Data),
                      ops := w.ops + 2 }) := by
  have hw' : ∀ k, w.fault k = none := hw
  simp [PingResponse.WriteToShm, Stream.Reserve, Stream.fill, Stream.tick, Stream.WriteBytes, hw',
    PutUint64]

theorem PingRequest_ReadFromShm_ok (req : PingRequest) (r : Stream) (d rest : List Byte)
    (hr : r.reliable) (hd : d.length < 9223372036854775808)
    (hbuf : r.recvBuf = PutUint64 (uint64 d.length) ++ d ++ rest) :
    req.ReadFromShm r = (none, { Data := d }, { r with recvBuf := rest, ops := r.ops + 2 }) := by
  have h0 := hr r.ops
  have h1 := hr (r.ops + 1)
  have e1 := ReadBytes_ok r 8 h0 (by rw [hbuf]; simp [PutUint64])
  simp only [Nat.cast_ofNat] at e1
  have e2 : Uint64 (List.take 8 r.recvBuf) = d.length := by
    have := Uint64_PutUint64 (uint64 d.length)
    rw [hbuf]
    simp [PutUint64, Uint64, uint64] at this ⊢
    omega
  have e3 := ReadBytes_ok { r with recvBuf := r.recvBuf.drop 8, ops := r.ops + 1 } d.length h1
    (by simp [hbuf, PutUint64])
  simp only [PingRequest.ReadFromShm, e1, e2, int_small _ hd, e3]
  simp [hbuf, PutUint64]

theorem PingResponse_ReadFromShm_ok (resp : PingResponse) (r : Stream) (d rest : List Byte)
    (hr : r.reliable) (hd : d.length < 9223372036854775808)
    (hbuf : r.recvBuf = PutUint64 (uint64 d.length) ++ d ++ rest) :
    resp.ReadFromShm r = (none, { Data := d }, { r with recvBuf := rest, ops := r.ops + 2 }) := by
  have h0 := hr r.ops
  have h1 := hr (r.ops + 1)
  have e1 := ReadBytes_ok r 8 h0 (by rw [hbuf]; simp [PutUint64])
  simp only [Nat.cast_ofNat] at e1
  have e2 : Uint64 (List.take 8 r.recvBuf) = d.length := by
    have := Uint64_PutUint64 (uint64 d.length)
    rw [hbuf]
    simp [PutUint64, Uint64, uint64] at this ⊢
    omega
  have e3 := ReadBytes_ok { r with recvBuf := r.recvBuf.drop 8, ops := r.ops + 1 } d.length h1
    (by simp [hbuf, PutUint64])
  simp only [PingResponse.ReadFromShm, e1, e2, int_small _ hd, e3]
  simp [hbuf, PutUint64]

theorem writeRequest_ok (s : Stream) (m : GoString) (args : ShmWriter) (p : List Byte)
    (hs : s.reliable) (hargs : Encodes args p) :
    ∃ n, Client.Call.writeRequest s m args =
      (none, { s with
                 sendBuf := [], ops := s.ops + n, flushes := s.flushes + 1,
                 sent := s.sent ++ (s.sendBuf ++ PutUint16 (uint16 m.length) ++ m ++ p),
                 recvBuf := s.recvBuf ++ s.peer (s.sendBuf ++ PutUint16 (uint16 m.length) ++ m ++ p) }) := by
  have hs' : ∀ k, s.fault k = none := hs
  obtain ⟨n, hn⟩ := hargs
    { s with sendBuf := s.sendBuf ++ PutUint16 (uint16 m.length) ++ m, ops := s.ops + 1 + 1 } hs
  refine ⟨1 + 1 + n + 1, ?_⟩
  simp only [Client.Call.writeRequest, Stream.Reserve, hs', Stream.fill, Stream.tick,
    Stream.WriteString, Stream.WriteBytes]
  have e : List.take s.sendBuf.length (s.sendBuf ++ List.replicate 2 0) ++
      PutUint16 (uint16 m.length) ++
      List.drop (s.sendBuf.length + (PutUint16 (uint16 m.length)).length)
        (s.sendBuf ++ List.replicate 2 0) ++ m = s.sendBuf ++ PutUint16 (uint16 m.length) ++ m := by
    simp [PutUint16]
  rw [e, hn]
  simp [Stream.Flush, Stream.tick, hs', Nat.add_assoc]

theorem serviceMethod_frame (r : Stream) (m : GoString) (rest : List Byte) (hr : r.reliable)
    (hbuf : r.recvBuf = PutUint16 (uint16 m.length) ++ m ++ rest) :
    Server.readRequest.serviceMethod r =
      (.ok (m.take (m.length % 65536)),
        { r with recvBuf := m.drop (m.length % 65536) ++ rest, ops := r.ops + 2 }) := by
  have h0 := hr r.ops
  have h1 := hr (r.ops + 1)
  have hlen : (2 : Nat) ≤ r.recvBuf.length := by rw [hbuf]; simp [PutUint16]
  have e2 := ReadBytes_ok r 2 h0 hlen
  have hle : m.length % 65536 ≤ m.length := Nat.mod_le _ _
  have e3 := ReadBytes_ok { r with recvBuf := r.recvBuf.drop 2, ops := r.ops + 1 }
    (m.length % 65536) h1 (by simp [hbuf, PutUint16]; omega)
  simp only [Nat.cast_ofNat] at e2
  simp only [Server.readRequest.serviceMethod, e2]
  have e4 : Uint16 (List.take 2 r.recvBuf) = m.length % 65536 := by
    rw [hbuf]
    have := Uint16_PutUint16 (uint16 m.length)
    simp [PutUint16, Uint16, uint16] at this ⊢
    exact this
  rw [e4, e3]
  simp [hbuf, PutUint16, List.take_append_of_le_length hle, List.drop_append_of_le_length hle]

theorem wireText_length_le (errmsg : GoString) : (wireText errmsg).length ≤ MaxUint32 := by
  unfold wireText
  split
  · simp
  · omega

theorem wireText_ne_nil (errmsg : GoString) (h : errmsg ≠ []) : 0 < (wireText errmsg).length := by
  have hpos : 0 < errmsg.length := List.length_pos.mpr h
  unfold wireText
  split
  · simp [MaxUint32]; omega
  · exact hpos

theorem wireText_short (errmsg : GoString) (h : errmsg.length ≤ MaxUint32) :
    wireText errmsg = errmsg := by
  simp [wireText]; omega

theorem sendResponse_error {V : Type} (R : Reflect V) (w : Stream) (replyv : Option V)
    (errmsg : GoString) (hw : w.reliable) (hmsg : errmsg ≠ []) :
    Server.sendResponse R w replyv errmsg =
      (none, { w with sendBuf := w.sendBuf ++ (PutUint32 (wireText errmsg).length ++ wireText errmsg),
                      ops := w.ops + 2 }) := by
  have hw' : ∀ k, w.fault k = none := hw
  have hpos := wireText_ne_nil errmsg hmsg
  have hle := wireText_length_le errmsg
  have hu : uint32 (wireText errmsg).length = (wireText errmsg).length := by
    simp only [MaxUint32] at hle
    simp only [uint32]; omega
  unfold wireText at hpos hu
  simp only [Server.sendResponse, Stream.Reserve, hw', Stream.fill, Stream.tick, hu, hpos,
    if_true, Stream.WriteBytes, wireText]
  simp [PutUint32]

theorem sendResponse_reply {V : Type} (R : Reflect V) (w : Stream) (replyv : V) (q : List Byte)
    (n : Nat) (hw : w.reliable)
    (hq : ∀ s : Stream, s.reliable → R.WriteToShm replyv s =
      (none, { s with sendBuf := s.sendBuf ++ q, ops := s.ops + n })) :
    Server.sendResponse R w (some replyv) [] =
      (none, { w with sendBuf := [], sent := w.sent ++ (w.sendBuf ++ (PutUint32 0 ++ q)),
                      flushes := w.flushes + 1, ops := w.ops + (n + 2),
                      recvBuf := w.recvBuf ++ w.peer (w.sendBuf ++ (PutUint32 0 ++ q)) }) := by
  have hw' : ∀ k, w.fault k = none := hw
  simp only [Server.sendResponse, Stream.Reserve, hw', Stream.fill, Stream.tick, List.length_nil,
    gt_iff_lt, Nat.not_lt_zero, if_false, lt_self_iff_false]
  have key : ∀ s : Stream, (∀ k, s.fault k = none) → R.WriteToShm replyv s =
      (none, { s with sendBuf := s.sendBuf ++ q, ops := s.ops + n }) := hq
  simp [key, Stream.Flush, hw', Stream.tick, PutUint32, uint32, Nat.add_assoc]
  omega

theorem readResponse_error {ρ : Type} (c : Stream) (R : ShmReader ρ) (reply : ρ)
    (msg rest : List Byte) (hc : c.reliable) (hpos : 0 < msg.length)
    (hle : msg.length ≤ MaxUint32) (hbuf : c.recvBuf = PutUint32 msg.length ++ msg ++ rest) :
    Client.Call.readResponse c R reply =
      (some (errorsNew msg), reply, { c with recvBuf := rest, ops := c.ops + 2 }) := by
  have h0 := hc c.ops
  have h1 := hc (c.ops + 1)
  simp only [MaxUint32] at hle
  have e1 := ReadBytes_ok c 4 h0 (by rw [hbuf]; simp [PutUint32])
  simp only [Nat.cast_ofNat] at e1
  have e2 : Uint32 (List.take 4 c.recvBuf) = msg.length := by
    have := Uint32_PutUint32 msg.length
    rw [hbuf]
    simp [PutUint32, Uint32] at this ⊢
    omega
  have e3 := ReadBytes_ok { c with recvBuf := c.recvBuf.drop 4, ops := c.ops + 1 } msg.length h1
    (by simp [hbuf, PutUint32])
  simp only [Client.Call.readResponse, e1, e2, int_small _ (show msg.length < 9223372036854775808 by omega),
    e3, hpos, gt_iff_lt, if_true]
  simp [hbuf, PutUint32]

theorem readResponse_reply {ρ : Type} (c : Stream) (R : ShmReader ρ) (reply : ρ)
    (rest : List Byte) (hc : c.reliable) (hbuf : c.recvBuf = PutUint32 0 ++ rest) :
    Client.Call.readResponse c R reply =
      match R.ReadFromShm reply { c with recvBuf := rest, ops := c.ops + 1 } with
      | (some err, reply, stream) =>
        (some (Errorf "rpc: can't read from shared memory: " err ""), reply, stream)
      | (none, reply, stream) => (none, reply, stream) := by
  have h0 := hc c.ops
  have e1 := ReadBytes_ok c 4 h0 (by rw [hbuf]; simp [PutUint32])
  simp only [Nat.cast_ofNat] at e1
  have e2 : Uint32 (List.take 4 c.recvBuf) = 0 := by
    rw [hbuf]; simp [PutUint32, Uint32, bigEndian, byteOf]
  have e3 : List.drop 4 c.recvBuf = rest := by rw [hbuf]; simp [PutUint32]
  simp only [Client.Call.readResponse, e1, e2, e3, gt_iff_lt, lt_self_iff_false, if_false]
  try rfl

theorem readRequest_ping (r : Stream) (d : List Byte) (hr : r.reliable)
    (hd : d.length < 9223372036854775808)
    (hbuf : r.recvBuf = PutUint16 (uint16 servicePing.length) ++ servicePing ++
      (PutUint64 (uint64 d.length) ++ d)) :
    Server.readRequest pingReflect pingServer r =
      (.ok (pingService, mtypePing, .Request { Data := d }, .Response { Data := [] }),
        { r with recvBuf := [], ops := r.ops + 4 }) := by
  have e1 := serviceMethod_frame r servicePing _ hr hbuf
  have hlen : servicePing.length % 65536 = servicePing.length := by decide
  rw [hlen, List.take_length, List.drop_length, List.nil_append] at e1
  have hdot : LastIndex servicePing dotByte = 7 := by decide
  have hsvc : pingServer.serviceMap.get (servicePing.take (7 : Int).toNat) = some pingService := by rfl
  have hm : pingService.method.get (servicePing.drop ((7 : Int) + 1).toNat) = some mtypePing := by rfl
  have e2 := PingRequest_ReadFromShm_ok { Data := [] }
    { r with recvBuf := PutUint64 (uint64 d.length) ++ d, ops := r.ops + 2 } d [] hr hd (by simp)
  have hnew1 : pingReflect.New typePingRequest = .Request { Data := [] } := rfl
  have hnew2 : pingReflect.New typePingResponse = .Response { Data := [] } := rfl
  have hread : ∀ (req : PingRequest) (r : Stream), pingReflect.ReadFromShm (.Request req) r =
      ((req.ReadFromShm r).1, .Request (req.ReadFromShm r).2.1, (req.ReadFromShm r).2.2) :=
    fun _ _ => rfl
  simp only [Server.readRequest, e1, hdot, hsvc, hm]
  simp [mtypePing, GoType.isPointer, GoType.Elem, hnew1, hnew2, hread, e2]

theorem remote_ping (d : List Byte) (hd : d.length < 9223372036854775808) :
    remote pingReflect pingServer (PutUint16 (uint16 servicePing.length) ++ servicePing ++
      (PutUint64 (uint64 d.length) ++ d)) = PutUint32 0 ++ (PutUint64 (uint64 d.length) ++ d) := by
  have hrel : (serverStream (PutUint16 (uint16 servicePing.length) ++ servicePing ++
      (PutUint64 (uint64 d.length) ++ d))).reliable := fun _ => rfl
  have e1 := readRequest_ping _ d hrel hd rfl
  have e2 := sendResponse_reply pingReflect
    { serverStream (PutUint16 (uint16 servicePing.length) ++ servicePing ++
      (PutUint64 (uint64 d.length) ++ d)) with recvBuf := [], ops := 4 }
    (.Response { Data := d }) (PutUint64 (uint64 d.length) ++ d) 2 hrel
    (fun s hs => PingResponse_WriteToShm_ok { Data := d } s hs)
  simp only [remote, Server.ServeStream, e1]
  simp only [service.call, mtypePing, methodPing, Service.Ping]
  simp only [serverStream] at e2 ⊢
  simp [e2]

theorem pingArgs_Encodes (d : List Byte) :
    Encodes (pingArgs d) (PutUint64 (uint64 d.length) ++ d) := by
  intro s hs
  exact ⟨2, PingRequest_WriteToShm_ok { Data := d } s hs⟩

/-- An open client whose lock is free: `Call` returns, and it returns with the lock held. -/
theorem Call_open {ρ : Type} (c : Client) (m : GoString) (args : ShmWriter) (R : ShmReader ρ)
    (reply : ρ) (hm : c.mutex = false) (hc : c.closing = false) (hs : c.shutdown = false) :
    ∃ res, c.Call m args R reply = some res ∧ res.client.mutex = true ∧
      res.client.closing = false ∧ res.client.shutdown = false ∧
      res.client.smgr.log = c.smgr.log ++
        (match c.smgr.getStream (c.smgr.log.count .GetStream) with
         | .ok s => [.GetStream, .PutBack s.id]
         | .error _ => [.GetStream]) := by
  unfold Client.Call
  simp only [hm, hc, hs, SessionManager.GetStream]
  cases hg : c.smgr.getStream (c.smgr.log.count .GetStream) with
  | error e => simp
  | ok s =>
    simp only [Bool.false_eq_true, if_false, Bool.or_self]
    cases hw : Client.Call.writeRequest s m args with
    | mk e s1 =>
      cases e with
      | some err => simp [SessionManager.PutBack]
      | none =>
        simp only
        cases hr : Client.Call.readResponse s1 R reply with
        | mk e2 rest => simp [SessionManager.PutBack]

theorem Call_locked {ρ : Type} (c : Client) (m : GoString) (args : ShmWriter) (R : ShmReader ρ)
    (reply : ρ) (hm : c.mutex = true) : c.Call m args R reply = none := by
  simp [Client.Call, hm]

theorem Close_locked (c : Client) (hm : c.mutex = true) : c.Close = none := by
  simp [Client.Close, hm]

/-- The echo on a client whose lock is free. -/
theorem Call_echo (c : Client) (s : Stream) (d : List Byte) (reply : PingResponse)
    (hm : c.mutex = false) (hc : c.closing = false) (hsd : c.shutdown = false)
    (hg : c.smgr.getStream (c.smgr.log.count .GetStream) = .ok s)
    (hs : s.reliable) (hbuf : s.sendBuf = [] ∧ s.recvBuf = [])
    (hpeer : s.peer = remote pingReflect pingServer)
    (hd : d.length ≤ 33554432) :
    ∃ res, c.Call servicePing (pingArgs d) pingReply reply = some res ∧ res.err = none ∧
      res.reply.Data = d := by
  obtain ⟨id, recvBuf, sendBuf, sent, flushes, fault, ops, peer⟩ := s
  simp only at hbuf hpeer
  obtain ⟨rfl, rfl⟩ := hbuf
  subst hpeer
  obtain ⟨n, hw⟩ := writeRequest_ok _ servicePing (pingArgs d) _ hs (pingArgs_Encodes d)
  have hd' : d.length < 9223372036854775808 := by omega
  simp only [List.nil_append, remote_ping d hd'] at hw
  have hr := readResponse_reply
    { id := id, recvBuf := PutUint32 0 ++ (PutUint64 (uint64 d.length) ++ d), sendBuf := [],
      sent := sent ++ (PutUint16 (uint16 servicePing.length) ++ servicePing ++
               (PutUint64 (uint64 d.length) ++ d)),
      flushes := flushes + 1, fault := fault, ops := ops + n,
      peer := remote pingReflect pingServer }
    pingReply reply (PutUint64 (uint64 d.length) ++ d) hs rfl
  have hdec : pingReply.ReadFromShm reply
      { id := id, recvBuf := PutUint64 (uint64 d.length) ++ d, sendBuf := [],
        sent := sent ++ (PutUint16 (uint16 servicePing.length) ++ servicePing ++
               (PutUint64 (uint64 d.length) ++ d)),
        flushes := flushes + 1, fault := fault, ops := ops + n + 1,
        peer := remote pingReflect pingServer } = _ :=
    PingResponse_ReadFromShm_ok reply _ d [] hs hd' (by simp)
  simp only [hdec] at hr
  unfold Client.Call
  simp only [hm, hc, hsd, SessionManager.GetStream, hg, hw, Bool.false_eq_true, if_false,
    Bool.or_self, hr]
  exact ⟨_, rfl, rfl, rfl⟩

/-! ## The split of the method identifier -/

theorem LastIndex_ge (s : GoString) (c : Byte) : -1 ≤ LastIndex s c := by
  induction s with
  | nil => simp [LastIndex]
  | cons x xs ih =>
    simp only [LastIndex]
    split
    · omega
    · split <;> omega

theorem LastIndex_not_mem (s : GoString) (c : Byte) (h : c ∉ s) : LastIndex s c = -1 := by
  induction s with
  | nil => simp [LastIndex]
  | cons x xs ih =>
    have hx : x ≠ c := fun e => h (by simp [e])
    have hxs : c ∉ xs := fun e => h (by simp [e])
    simp [LastIndex, ih hxs, hx]

theorem LastIndex_neg (s : GoString) (c : Byte) (h : LastIndex s c < 0) : c ∉ s := by
  induction s with
  | nil => simp
  | cons x xs ih =>
    simp only [LastIndex] at h
    by_cases hr : LastIndex xs c ≥ 0
    · rw [if_pos hr] at h; omega
    · rw [if_neg hr] at h
      by_cases hx : x = c
      · rw [if_pos hx] at h; omega
      · have hxs := ih (by omega)
        intro hmem
        rcases List.mem_cons.mp hmem with e | e
        · exact hx e.symm
        · exact hxs e

theorem LastIndex_last (pre post : GoString) (c : Byte) (h : c ∉ post) :
    LastIndex (pre ++ c :: post) c = pre.length := by
  induction pre with
  | nil => simp [LastIndex, LastIndex_not_mem post c h]
  | cons x xs ih =>
    have h0 : ((xs.length : Int) ≥ 0) := by omega
    show LastIndex (x :: (xs ++ c :: post)) c = _
    simp only [LastIndex]
    rw [ih, if_pos h0]
    simp

theorem LastIndex_split (s : GoString) (c : Byte) (h : 0 ≤ LastIndex s c) :
    ∃ pre post, s = pre ++ c :: post ∧ c ∉ post ∧ LastIndex s c = pre.length := by
  induction s with
  | nil => simp [LastIndex] at h
  | cons x xs ih =>
    by_cases hr : LastIndex xs c ≥ 0
    · obtain ⟨pre, post, hs, hp, hl⟩ := ih hr
      refine ⟨x :: pre, post, by rw [hs]; rfl, hp, ?_⟩
      simp only [LastIndex]
      rw [if_pos hr, hl]
      simp
    · by_cases hx : x = c
      · refine ⟨[], xs, by rw [hx]; rfl, LastIndex_neg xs c (by omega), ?_⟩
        simp only [LastIndex]
        rw [if_neg hr, if_pos hx]
        rfl
      · simp only [LastIndex] at h
        rw [if_neg hr, if_neg hx] at h
        omega

/-! # Properties of the specification -/

/-! ## C1 -/

/-- C1 (end-to-end echo), on the freshly created client of the example connected
to the server with `Service.Ping` registered: the first `Call` with a 64-byte
payload returns nil and leaves `reply.Data` equal to the payload; the client is
still open, and a second `Call` on it never returns (the lock taken by the
first call is still held). -/
theorem echo_second_call_never_returns :
    ∃ res, Client.Call echoClient servicePing (pingArgs (List.replicate 64 0)) pingReply
        { Data := [] } = some res ∧
      res.err = none ∧ res.reply.Data = List.replicate 64 0 ∧
      res.client.closing = false ∧ res.client.shutdown = false ∧
      Client.Call res.client servicePing (pingArgs (List.replicate 64 0)) pingReply
        { Data := [] } = none := by
  obtain ⟨res, h1, h2, h3⟩ := Call_echo echoClient (clientStream 0 (remote pingReflect pingServer))
    (List.replicate 64 0) { Data := [] } rfl rfl rfl rfl (fun _ => rfl) ⟨rfl, rfl⟩ rfl
    (by rw [List.length_replicate]; decide)
  obtain ⟨res', h1', hm, hc, hs, _⟩ := Call_open echoClient servicePing
    (pingArgs (List.replicate 64 0)) pingReply { Data := [] } rfl rfl rfl
  have hres : res' = res := Option.some.inj (h1'.symm.trans h1)
  subst hres
  exact ⟨res', h1, h2, h3, hc, hs, Call_locked _ _ _ _ _ hm⟩

/-! ## C2 -/

theorem long_name_decodes_empty (m : GoString) (hlen : m.length = 65536) :
    (Client.Call.writeRequest (clientStream 0 (fun _ => [])) m (pingArgs [])).1 = none ∧
    (Server.readRequest.serviceMethod (serverStream
      (Client.Call.writeRequest (clientStream 0 (fun _ => [])) m (pingArgs [])).2.sent)).1
        = .ok [] ∧
    (Server.readRequest.serviceMethod (serverStream
      (Client.Call.writeRequest (clientStream 0 (fun _ => [])) m (pingArgs [])).2.sent)).1
        ≠ .ok m := by
  obtain ⟨n, hw⟩ := writeRequest_ok (clientStream 0 (fun _ => [])) m (pingArgs []) _
    (fun _ => rfl) (pingArgs_Encodes [])
  have hf := serviceMethod_frame
    (serverStream (Client.Call.writeRequest (clientStream 0 (fun _ => [])) m (pingArgs [])).2.sent)
    m (PutUint64 (uint64 ([] : List Byte).length) ++ []) (fun _ => rfl)
    (by rw [hw]; simp [serverStream, clientStream])
  have hz : m.length % 65536 = 0 := by rw [hlen]
  rw [hz, List.take_zero] at hf
  refine ⟨by rw [hw], by rw [hf], ?_⟩
  rw [hf]
  intro h
  have h2 : ([] : GoString) = m := Except.ok.inj h
  rw [← h2] at hlen
  simp at hlen

/-- C2 counterexample: for a method name of 65536 bytes the length field written
by `Call` is 0, so the server decodes the empty identifier, not the name. -/
theorem request_frame_long_name :
    (Client.Call.writeRequest (clientStream 0 (fun _ => [])) (List.replicate 65536 97)
      (pingArgs [])).1 = none ∧
    (Server.readRequest.serviceMethod (serverStream
      (Client.Call.writeRequest (clientStream 0 (fun _ => [])) (List.replicate 65536 97)
        (pingArgs [])).2.sent)).1 = .ok [] ∧
    (Server.readRequest.serviceMethod (serverStream
      (Client.Call.writeRequest (clientStream 0 (fun _ => [])) (List.replicate 65536 97)
        (pingArgs [])).2.sent)).1 ≠ .ok (List.replicate 65536 97) := by
  have hlen : (List.replicate 65536 (97 : Byte)).length = 65536 := List.length_replicate _ _
  exact long_name_decodes_empty _ hlen

/-- C2, amended: for every method name `m` of fewer than 65536 bytes, every
payload `p` and every argument whose encoding is `p`, `Call` writes and flushes
`[u16 big-endian length of m][m][p]` on a fresh stream whose operations succeed,
and `readRequest` reads from these bytes the identifier `m`, leaving exactly `p`
to be decoded as the argument. -/
theorem request_frame_roundtrip (m : GoString) (p : List Byte) (args : ShmWriter)
    (s r : Stream) (hm : m.length < 65536) (hargs : Encodes args p)
    (hs : s.reliable) (hfresh : s.sendBuf = [] ∧ s.sent = [])
    (hr : r.reliable) (hrecv : r.recvBuf = (Client.Call.writeRequest s m args).2.sent) :
    (Client.Call.writeRequest s m args).1 = none ∧
    (Client.Call.writeRequest s m args).2.sent = PutUint16 m.length ++ m ++ p ∧
    (Server.readRequest.serviceMethod r).1 = .ok m ∧
    (Server.readRequest.serviceMethod r).2.recvBuf = p := by
  obtain ⟨n, hw⟩ := writeRequest_ok s m args p hs hargs
  have hu : uint16 m.length = m.length := Nat.mod_eq_of_lt hm
  have hsent : (Client.Call.writeRequest s m args).2.sent = PutUint16 m.length ++ m ++ p := by
    rw [hw]; simp [hfresh.1, hfresh.2, hu]
  rw [hsent] at hrecv
  have hf := serviceMethod_frame r m p hr (by rw [hu]; exact hrecv)
  have hz : m.length % 65536 = m.length := Nat.mod_eq_of_lt hm
  rw [hz, List.take_length, List.drop_length] at hf
  refine ⟨by rw [hw], hsent, by rw [hf], by rw [hf]; rfl⟩

/-- C2 witness: the request `Service.Ping` with a three-byte payload. -/
theorem request_frame_roundtrip_witness :
    (Client.Call.writeRequest (clientStream 0 (fun _ => [])) servicePing (pingArgs [1, 2, 3])).1
      = none ∧
    (Client.Call.writeRequest (clientStream 0 (fun _ => [])) servicePing
      (pingArgs [1, 2, 3])).2.sent
      = PutUint16 servicePing.length ++ servicePing ++ (PutUint64 (uint64 3) ++ [1, 2, 3]) ∧
    (Server.readRequest.serviceMethod (serverStream (Client.Call.writeRequest
      (clientStream 0 (fun _ => [])) servicePing (pingArgs [1, 2, 3])).2.sent)).1
      = .ok servicePing ∧
    (Server.readRequest.serviceMethod (serverStream (Client.Call.writeRequest
      (clientStream 0 (fun _ => [])) servicePing (pingArgs [1, 2, 3])).2.sent)).2.recvBuf
      = PutUint64 (uint64 3) ++ [1, 2, 3] :=
  request_frame_roundtrip servicePing (PutUint64 (uint64 3) ++ [1, 2, 3]) (pingArgs [1, 2, 3])
    (clientStream 0 (fun _ => [])) (serverStream (Client.Call.writeRequest
      (clientStream 0 (fun _ => [])) servicePing (pingArgs [1, 2, 3])).2.sent)
    (by decide) (pingArgs_Encodes [1, 2, 3]) (fun _ => rfl) ⟨rfl, rfl⟩ (fun _ => rfl) rfl

/-! ## C3 -/

theorem Call_flagged {ρ : Type} (c : Client) (m : GoString) (args : ShmWriter) (R : ShmReader ρ)
    (reply : ρ) (hm : c.mutex = false) (hflag : c.closing = true ∨ c.shutdown = true) :
    c.Call m args R reply =
      some { err := some .ErrShutdown, reply := reply, client := c, stream := none } := by
  obtain ⟨smgr, mutex, closing, shutdown⟩ := c
  simp only at hm hflag
  subst hm
  rcases hflag with h | h <;> subst h <;> simp [Client.Call]

theorem step_settled (c c' : Client) (op : ClientOp) (hc : c.settled)
    (hstep : c.step op = some c') : c'.settled := by
  obtain ⟨hsd, hcl⟩ := hc
  cases op with
  | Close =>
    obtain ⟨smgr, mutex, closing, shutdown⟩ := c
    simp only at hsd hcl
    subst hsd
    cases mutex <;> cases closing <;>
      simp [Client.step, Client.Close, SessionManager.Close] at hstep <;>
      subst hstep <;> simp [Client.settled]
  | Call ρ m args R reply =>
    cases hmx : c.mutex with
    | true => simp [Client.step, Call_locked c m args R reply hmx] at hstep
    | false =>
      cases hcc : c.closing with
      | true =>
        have := Call_flagged c m args R reply hmx (Or.inl hcc)
        simp [Client.step, this] at hstep
        subst hstep
        exact ⟨hsd, hcl⟩
      | false =>
        obtain ⟨res, h1, _, h3, h4, _⟩ := Call_open c m args R reply hmx hcc hsd
        simp [Client.step, h1] at hstep
        subst hstep
        exact ⟨h4, fun h => by rw [h3] at h; cases h⟩

theorem run_settled (ops : List ClientOp) (c c' : Client) (hc : c.settled)
    (hrun : c.run ops = some c') : c'.settled := by
  induction ops generalizing c with
  | nil =>
    simp [Client.run] at hrun
    subst hrun
    exact hc
  | cons op ops ih =>
    simp only [Client.run] at hrun
    cases hstep : c.step op with
    | none => simp [hstep] at hrun
    | some c1 =>
      simp [hstep] at hrun
      exact ih c1 (step_settled c c1 op hc hstep) hrun

/-- C3: a `Call` on a client whose `closing` or `shutdown` flag is set returns
`ErrShutdown` and leaves the client, hence the log of the session manager,
as it was: no `GetStream`, and no stream is leased, written or read. This holds
(1) of every client with a flag set whose lock is free, and (2) of every client
with `closing` set that a sequence of `Close` and `Call` uses of a freshly
created client leaves behind. -/
theorem Call_after_Close_returns_ErrShutdown :
    (∀ (ρ : Type) (c : Client) (m : GoString) (args : ShmWriter) (R : ShmReader ρ) (reply : ρ),
      c.mutex = false → (c.closing = true ∨ c.shutdown = true) →
      c.Call m args R reply =
        some { err := some .ErrShutdown, reply := reply, client := c, stream := none }) ∧
    (∀ (ρ : Type) (smgr : SessionManager) (c0 c : Client) (ops : List ClientOp) (m : GoString)
      (args : ShmWriter) (R : ShmReader ρ) (reply : ρ),
      NewClient (.ok smgr) = .ok c0 → c0.run ops = some c → c.closing = true →
      c.Call m args R reply =
        some { err := some .ErrShutdown, reply := reply, client := c, stream := none }) := by
  refine ⟨fun ρ c m args R reply hm hflag => Call_flagged c m args R reply hm hflag, ?_⟩
  intro ρ smgr c0 c ops m args R reply hnew hrun hcl
  have h0 : c0.settled := by
    simp only [NewClient, Except.ok.injEq] at hnew
    subst hnew
    exact ⟨rfl, fun h => by cases h⟩
  have hc := run_settled ops c0 c h0 hrun
  exact Call_flagged c m args R reply (hc.2 hcl) (Or.inl hcl)

/-- C3 witness: the client of the example after `Close`, which is also the
client that `Close` followed by a `Call` leaves behind. -/
theorem Call_after_Close_witness :
    (Client.Call closedEchoClient servicePing (pingArgs [1]) pingReply { Data := [] } =
      some { err := some .ErrShutdown, reply := { Data := [] }, client := closedEchoClient,
             stream := none }) ∧
    (echoClient.run [.Close, .Call PingResponse servicePing (pingArgs [1]) pingReply
        { Data := [] }] = some closedEchoClient ∧ closedEchoClient.closing = true ∧
      Client.Call closedEchoClient servicePing (pingArgs [2]) pingReply { Data := [] } =
        some { err := some .ErrShutdown, reply := { Data := [] }, client := closedEchoClient,
               stream := none }) :=
  ⟨Call_after_Close_returns_ErrShutdown.1 PingResponse closedEchoClient
      servicePing (pingArgs [1]) pingReply { Data := [] } rfl (Or.inl rfl),
   rfl, rfl,
    Call_after_Close_returns_ErrShutdown.2 PingResponse
      (echoSmgr (remote pingReflect pingServer)) echoClient closedEchoClient
      [.Close, .Call PingResponse servicePing (pingArgs [1]) pingReply { Data := [] }]
      servicePing (pingArgs [2]) pingReply { Data := [] } rfl rfl rfl⟩

/-! ## C4 -/

theorem Close_closing (c : Client) (hm : c.mutex = false) (hc : c.closing = true) :
    c.Close = some (some .ErrShutdown, c) := by
  obtain ⟨smgr, mutex, closing, shutdown⟩ := c
  simp only at hm hc
  subst hm; subst hc
  simp [Client.Close]

theorem run_Close_closing (n : Nat) (c : Client) (hm : c.mutex = false) (hc : c.closing = true) :
    c.run (List.replicate n .Close) = some c := by
  induction n with
  | zero => rfl
  | succ n ih =>
    simp [List.replicate_succ, Client.run, Client.step, Close_closing c hm hc, ih]

/-- C4: on a freshly created client the first `Close` sets `closing`, calls the
session manager's `Close` once and returns its result; the second `Close`
returns `ErrShutdown` and leaves the client, hence the log of the session
manager, as it was; and any number of `Close` calls in a row returns with the
session manager closed at most once. -/
theorem Close_twice (smgr : SessionManager) (c0 : Client) (hnew : NewClient (.ok smgr) = .ok c0) :
    ∃ c1, c0.Close = some (smgr.closeErr, c1) ∧ c1.closing = true ∧
      c1.smgr.log = smgr.log ++ [.Close] ∧
      c1.Close = some (some .ErrShutdown, c1) ∧
      ∀ n, ∃ cn, c0.run (List.replicate n .Close) = some cn ∧
        cn.smgr.log = smgr.log ++ (if n = 0 then [] else [.Close]) := by
  simp only [NewClient, Except.ok.injEq] at hnew
  subst hnew
  let c1 : Client := ⟨⟨smgr.getStream, smgr.closeErr, smgr.log ++ [.Close]⟩, false, true, false⟩
  have hfirst : Client.Close ⟨smgr, false, false, false⟩ = some (smgr.closeErr, c1) := by
    simp [Client.Close, SessionManager.Close, c1]
  refine ⟨c1, hfirst, rfl, rfl, Close_closing c1 rfl rfl, ?_⟩
  intro n
  cases n with
  | zero => exact ⟨_, rfl, by simp⟩
  | succ n =>
    refine ⟨c1, ?_, by simp [c1]⟩
    have h := run_Close_closing n c1 rfl rfl
    simp only [List.replicate_succ, Client.run, Client.step, hfirst, Option.map_some',
      Option.some_bind, h]

/-- C4 witness: the client of the example. -/
theorem Close_twice_witness :
    ∃ c1, echoClient.Close = some (none, c1) ∧ c1.closing = true ∧
      c1.smgr.log = [] ++ [.Close] ∧
      c1.Close = some (some .ErrShutdown, c1) ∧
      ∀ n, ∃ cn, echoClient.run (List.replicate n .Close) = some cn ∧
        cn.smgr.log = [] ++ (if n = 0 then [] else [.Close]) :=
  Close_twice (echoSmgr (remote pingReflect pingServer)) echoClient rfl

/-! ## C5 -/

theorem GoMap_get_set {β : Type} (m : GoMap β) (k : GoString) (v : β) :
    (m.set k v).get k = some v := by
  simp [GoMap.set, GoMap.get, List.lookup]

/-- C5 counterexample: two registrations of the receiver of the example, which
has a qualifying method, under the same name, the empty one: already the first
returns an error, not nil. -/
theorem register_empty_name :
    suitableMethods pingReflect (pingReflect.TypeOf .Service) ≠ [] ∧
    (Server.RegisterName pingReflect (NewServer PingValue) [] .Service).1 =
      some (errorsNew (str "rpc.Register: no service name for type *main.Service")) := by
  refine ⟨?_, by decide⟩
  intro h
  have : (suitableMethods pingReflect (pingReflect.TypeOf .Service)).length = 0 := by rw [h]; rfl
  revert this
  decide

/-- C5, amended: for every two receivers with at least one qualifying method
each that resolve to the same service name `n`, where `n` is not empty, is an
exported identifier for a registration that does not supply the name, and is
not registered yet: the first registration returns nil, the second returns the
error "rpc: service already defined: " + n and leaves the registry unchanged,
and a lookup of `n` resolves to the first receiver and its method table. -/
theorem register_duplicate {V : Type} (R : Reflect V) (server : Server V) (r1 r2 : V)
    (name1 name2 n : GoString) (useName1 useName2 : Bool)
    (h1 : (if !useName1 then (R.TypeOf r1).Indirect.Name else name1) = n)
    (h2 : (if !useName2 then (R.TypeOf r2).Indirect.Name else name2) = n)
    (hq1 : (suitableMethods R (R.TypeOf r1)).length ≠ 0)
    (hq2 : (suitableMethods R (R.TypeOf r2)).length ≠ 0)
    (hn : n ≠ [])
    (he1 : useName1 = true ∨ R.IsExported n = true)
    (he2 : useName2 = true ∨ R.IsExported n = true)
    (hfree : server.serviceMap.get n = none) :
    ∃ server1, server.register R r1 name1 useName1 = (none, server1) ∧
      server1.register R r2 name2 useName2 =
        (some (errorsNew (str "rpc: service already defined: " ++ n)), server1) ∧
      server1.serviceMap.get n =
        some { name := n, rcvr := r1, typ := R.TypeOf r1,
               method := suitableMethods R (R.TypeOf r1) } := by
  have hx1 : (!useName1 && !R.IsExported n) = false := by
    rcases he1 with h | h <;> simp [h]
  have hx2 : (!useName2 && !R.IsExported n) = false := by
    rcases he2 with h | h <;> simp [h]
  let s1 : service V := ⟨n, r1, R.TypeOf r1, suitableMethods R (R.TypeOf r1)⟩
  have hget : (server.serviceMap.set n s1).get n = some s1 := GoMap_get_set server.serviceMap n s1
  refine ⟨⟨server.serviceMap.set n s1⟩, ?_, ?_, hget⟩
  · simp only [Server.register, h1, hn, hx1, hq1, hfree, if_false]
    simp
  · simp only [Server.register, h2, hn, hx2, hq2, hget, if_false]
    simp

/-- C5 witness: the receiver of the example registered twice by `Register`. -/
theorem register_duplicate_witness :
    ∃ server1, (NewServer PingValue).register pingReflect .Service [] false = (none, server1) ∧
      server1.register pingReflect .Service [] false =
        (some (errorsNew (str "rpc: service already defined: " ++ str "Service")), server1) ∧
      server1.serviceMap.get (str "Service") =
        some { name := str "Service", rcvr := .Service, typ := pingReflect.TypeOf .Service,
               method := suitableMethods pingReflect (pingReflect.TypeOf .Service) } :=
  register_duplicate pingReflect (NewServer PingValue) .Service .Service [] [] (str "Service")
    false false rfl rfl (by decide) (by decide) (by decide) (Or.inr (by decide))
    (Or.inr (by decide)) rfl

/-! ## C6 -/

theorem str_find_service_length : (str "rpc: can't find service ").length = 24 := by decide

theorem str_find_method_length : (str "rpc: can't find method ").length = 23 := by decide

/-- The frame of an error response and what the client makes of it. -/
theorem error_frame_parsed {V ρ : Type} (R : Reflect V) (w c : Stream) (Rd : ShmReader ρ)
    (reply : ρ) (msg : GoString) (hw : w.reliable) (hwb : w.sendBuf = []) (hmsg : msg ≠ [])
    (hlen : msg.length ≤ MaxUint32) (hc : c.reliable)
    (hrecv : c.recvBuf = (Server.sendResponse R w none msg).2.sendBuf) :
    (Server.sendResponse R w none msg).2.sendBuf = PutUint32 msg.length ++ msg ∧
    (Server.sendResponse R w none msg).2.flushes = w.flushes ∧
    (Server.sendResponse R w none msg).2.sent = w.sent ∧
    (Client.Call.readResponse c Rd reply).1 = some (errorsNew msg) ∧
    (Client.Call.readResponse c Rd reply).2.1 = reply := by
  have hs := sendResponse_error R w none msg hw hmsg
  rw [wireText_short msg hlen] at hs
  have hb : (Server.sendResponse R w none msg).2.sendBuf = PutUint32 msg.length ++ msg := by
    rw [hs]; simp [hwb]
  rw [hb] at hrecv
  have hr := readResponse_error c Rd reply msg [] hc (List.length_pos.mpr hmsg) hlen
    (by rw [hrecv]; simp)
  refine ⟨hb, by rw [hs], by rw [hs], by rw [hr], by rw [hr]⟩

/-- C6: a request whose identifier has a separator and names a service that is
not registered, or a registered service and a method that is not in its method
table. The response frame that `ServeStream` writes is the big-endian `u32`
length `L > 0` of the message followed by the `L` bytes of the message and
nothing else, the message being "rpc: can't find service " resp.
"rpc: can't find method " followed by the whole identifier; and the client's
parsing of that frame in `Call` returns the error with exactly that text and
leaves the reply untouched. -/
theorem unknown_service_or_method {V ρ : Type} (R : Reflect V) (server : Server V)
    (r c : Stream) (Rd : ShmReader ρ) (reply : ρ) (ident payload : List Byte)
    (hr : r.reliable) (hw : r.sendBuf = []) (hlen : ident.length < 65536)
    (hbuf : r.recvBuf = PutUint16 ident.length ++ ident ++ payload)
    (hdot : 0 ≤ LastIndex ident dotByte)
    (hmiss : server.serviceMap.get (ident.take (LastIndex ident dotByte).toNat) = none ∨
      ∃ svc, server.serviceMap.get (ident.take (LastIndex ident dotByte).toNat) = some svc ∧
        svc.method.get (ident.drop (LastIndex ident dotByte + 1).toNat) = none)
    (hc : c.reliable) (hrecv : c.recvBuf = (server.ServeStream R r).sendBuf) :
    ∃ msg : GoString,
      msg = (if (server.serviceMap.get (ident.take (LastIndex ident dotByte).toNat)).isNone
        then str "rpc: can't find service " ++ ident
        else str "rpc: can't find method " ++ ident) ∧
      0 < msg.length ∧
      (server.ServeStream R r).sendBuf = PutUint32 msg.length ++ msg ∧
      (Client.Call.readResponse c Rd reply).1 = some (errorsNew msg) ∧
      (Client.Call.readResponse c Rd reply).2.1 = reply := by
  have hu : uint16 ident.length = ident.length := Nat.mod_eq_of_lt hlen
  have hf := serviceMethod_frame r ident payload hr (by rw [hu]; exact hbuf)
  have hz : ident.length % 65536 = ident.length := Nat.mod_eq_of_lt hlen
  rw [hz, List.take_length, List.drop_length, List.nil_append] at hf
  have hnd : ¬ (LastIndex ident dotByte < 0) := by omega
  rcases hmiss with hnone | ⟨svc, hsome, hmeth⟩
  · have hread : server.readRequest R r =
        (.error (errorsNew (str "rpc: can't find service " ++ ident)),
          { r with recvBuf := payload, ops := r.ops + 2 }) := by
      simp only [Server.readRequest, hf, hnd, if_false, hnone]
    have hS : server.ServeStream R r = (Server.sendResponse R
        { r with recvBuf := payload, ops := r.ops + 2 } none
        (str "rpc: can't find service " ++ ident)).2 := by
      simp only [Server.ServeStream, hread, errorsNew, GoError.Error]
    have hne : str "rpc: can't find service " ++ ident ≠ [] := by
      intro h
      have := congrArg List.length h
      simp [str_find_service_length] at this
    have hle : (str "rpc: can't find service " ++ ident).length ≤ MaxUint32 := by
      simp [str_find_service_length, MaxUint32]; omega
    rw [hS] at hrecv ⊢
    obtain ⟨h1, _, _, h4, h5⟩ := error_frame_parsed R
      { r with recvBuf := payload, ops := r.ops + 2 } c Rd reply _ hr hw hne hle hc hrecv
    exact ⟨_, by rw [hnone]; rfl, List.length_pos.mpr hne, h1, h4, h5⟩
  · have hread : server.readRequest R r =
        (.error (errorsNew (str "rpc: can't find method " ++ ident)),
          { r with recvBuf := payload, ops := r.ops + 2 }) := by
      simp only [Server.readRequest, hf, hnd, if_false, hsome, hmeth]
    have hS : server.ServeStream R r = (Server.sendResponse R
        { r with recvBuf := payload, ops := r.ops + 2 } none
        (str "rpc: can't find method " ++ ident)).2 := by
      simp only [Server.ServeStream, hread, errorsNew, GoError.Error]
    have hne : str "rpc: can't find method " ++ ident ≠ [] := by
      intro h
      have := congrArg List.length h
      simp [str_find_method_length] at this
    have hle : (str "rpc: can't find method " ++ ident).length ≤ MaxUint32 := by
      simp [str_find_method_length, MaxUint32]; omega
    rw [hS] at hrecv ⊢
    obtain ⟨h1, _, _, h4, h5⟩ := error_frame_parsed R
      { r with recvBuf := payload, ops := r.ops + 2 } c Rd reply _ hr hw hne hle hc hrecv
    exact ⟨_, by rw [hsome]; rfl, List.length_pos.mpr hne, h1, h4, h5⟩

/-- C6 witness: the request `Service.Pong` to the server of the example, where
`Service` has no method `Pong`. -/
theorem unknown_service_or_method_witness :
    ∃ msg : GoString,
      msg = (if (pingServer.serviceMap.get ((str "Service.Pong").take
          (LastIndex (str "Service.Pong") dotByte).toNat)).isNone
        then str "rpc: can't find service " ++ str "Service.Pong"
        else str "rpc: can't find method " ++ str "Service.Pong") ∧
      0 < msg.length ∧
      (pingServer.ServeStream pingReflect
        (serverStream (PutUint16 (str "Service.Pong").length ++ str "Service.Pong" ++ [7]))).sendBuf
        = PutUint32 msg.length ++ msg ∧
      (Client.Call.readResponse (answeredStream (pingServer.ServeStream pingReflect
        (serverStream (PutUint16 (str "Service.Pong").length ++ str "Service.Pong" ++ [7]))).sendBuf)
        pingReply { Data := [9] }).1 = some (errorsNew msg) ∧
      (Client.Call.readResponse (answeredStream (pingServer.ServeStream pingReflect
        (serverStream (PutUint16 (str "Service.Pong").length ++ str "Service.Pong" ++ [7]))).sendBuf)
        pingReply { Data := [9] }).2.1 = { Data := [9] } :=
  unknown_service_or_method pingReflect pingServer
    (serverStream (PutUint16 (str "Service.Pong").length ++ str "Service.Pong" ++ [7]))
    (answeredStream (pingServer.ServeStream pingReflect
        (serverStream (PutUint16 (str "Service.Pong").length ++ str "Service.Pong" ++ [7]))).sendBuf)
    pingReply { Data := [9] } (str "Service.Pong") [7] (fun _ => rfl) rfl (by decide) rfl
    (by decide) (Or.inr ⟨pingService, rfl, rfl⟩) (fun _ => rfl) rfl

/-! ## C7 -/

/-- C7, evaluated on the server of the example with every transport operation
succeeding: for a request without separator, for an unknown service, for an
unknown method and for an argument that fails to decode, `ServeStream` writes
the error frame into the write buffer and returns without a flush, so nothing
is sent to the peer; the reply to `Service.Ping` is flushed. -/
theorem error_response_not_flushed :
    (pingServer.ServeStream pingReflect
      (serverStream (requestFrame (str "Ping") []))).unflushed = true ∧
    (pingServer.ServeStream pingReflect
      (serverStream (requestFrame (str "Nope.Ping") []))).unflushed = true ∧
    (pingServer.ServeStream pingReflect
      (serverStream (requestFrame (str "Service.Pong") []))).unflushed = true ∧
    (pingServer.ServeStream pingReflect
      (serverStream (requestFrame (str "Service.Ping") (PutUint64 5 ++ [1])))).unflushed = true ∧
    (pingServer.ServeStream pingReflect (serverStream (requestFrame (str "Service.Pong") []))).sendBuf
      = PutUint32 35 ++ str "rpc: can't find method Service.Pong" ∧
    remote pingReflect pingServer (requestFrame (str "Service.Pong") []) = [] ∧
    (pingServer.ServeStream pingReflect (serverStream
      (requestFrame (str "Service.Ping") (PutUint64 1 ++ [1])))).flushes = 1 ∧
    remote pingReflect pingServer (requestFrame (str "Service.Ping") (PutUint64 1 ++ [1]))
      = PutUint32 0 ++ PutUint64 1 ++ [1] := by
  decide

/-- Every error that `readRequest` returns is answered without a flush. -/
theorem ServeStream_error_unflushed {V : Type} (R : Reflect V) (server : Server V)
    (r r' : Stream) (e : GoError) (hread : server.readRequest R r = (.error e, r'))
    (hr : r'.reliable) (hne : e.Error ≠ []) :
    server.ServeStream R r =
      { r' with sendBuf := r'.sendBuf ++ (PutUint32 (wireText e.Error).length ++ wireText e.Error),
                ops := r'.ops + 2 } := by
  simp only [Server.ServeStream, hread, sendResponse_error R r' none e.Error hr hne]

/-! ## C8 -/

/-- C8 counterexample: the registered handler `Fail` returns the non-nil error
`errors.New("")`; the response carries the length field 0 followed by the reply
payload, and the client's `Call` returns nil. -/
theorem handler_empty_error_text :
    (failServer.serviceMap.get (str "Service")).map (fun s => s.method.map (fun m => m.1))
      = some [str "Fail"] ∧
    (methodFail.Func .Service (.Request { Data := [1] }) (.Response { Data := [] })).1
      = some (errorsNew []) ∧
    remote failReflect failServer (requestFrame (str "Service.Fail") (PutUint64 1 ++ [1]))
      = PutUint32 0 ++ PutUint64 0 ∧
    (Client.Call failClient (str "Service.Fail") (pingArgs [1]) pingReply { Data := [] }).map
      (fun res => res.err) = some none := by
  decide

/-- C8, amended: a handler invocation returns the error `erri` and leaves the
reply `replyv'`; `errmsg` is the text of the error, empty for nil. If `errmsg` is
not empty, `service.call` writes the frame `[u32 length][text]` of the text (cut
to its first `MaxUint32` bytes when longer) and nothing else, and the client's
parsing of that frame in `Call` returns the error with exactly that text, which
is `errmsg` itself when it has at most `MaxUint32` bytes. If `errmsg` is empty,
the response is the length field 0 followed by the encoded reply. -/
theorem handler_error_verbatim {V ρ : Type} (R : Reflect V) (svc : service V) (w c : Stream)
    (mtype : methodType V) (argv replyv replyv' : V) (erri : Option GoError) (errmsg : GoString)
    (Rd : ShmReader ρ) (reply : ρ) (q : List Byte) (n : Nat)
    (hw : w.reliable) (hwb : w.sendBuf = [])
    (hf : mtype.method.Func svc.rcvr argv replyv = (erri, replyv'))
    (hmsg : errmsg = match erri with
      | some e => e.Error
      | none => [])
    (hq : ∀ s : Stream, s.reliable → R.WriteToShm replyv' s =
      (none, { s with sendBuf := s.sendBuf ++ q, ops := s.ops + n }))
    (hc : c.reliable) (hrecv : c.recvBuf = (svc.call R w mtype argv replyv).sendBuf) :
    (errmsg ≠ [] →
      (svc.call R w mtype argv replyv).sendBuf
        = PutUint32 (wireText errmsg).length ++ wireText errmsg ∧
      (Client.Call.readResponse c Rd reply).1 = some (errorsNew (wireText errmsg)) ∧
      (errmsg.length ≤ MaxUint32 → wireText errmsg = errmsg)) ∧
    (errmsg = [] →
      (svc.call R w mtype argv replyv).sendBuf = [] ∧
      (svc.call R w mtype argv replyv).sent = w.sent ++ (PutUint32 0 ++ q)) := by
  have hcall : svc.call R w mtype argv replyv = (Server.sendResponse R w (some replyv') errmsg).2 := by
    simp only [service.call, hf, hmsg]
    cases erri <;> rfl
  rw [hcall] at hrecv ⊢
  constructor
  · intro hne
    have hs := sendResponse_error R w (some replyv') errmsg hw hne
    have hb : (Server.sendResponse R w (some replyv') errmsg).2.sendBuf
        = PutUint32 (wireText errmsg).length ++ wireText errmsg := by
      rw [hs]; simp [hwb]
    rw [hb] at hrecv
    have hr := readResponse_error c Rd reply (wireText errmsg) [] hc (wireText_ne_nil errmsg hne)
      (wireText_length_le errmsg) (by rw [hrecv]; simp)
    exact ⟨hb, by rw [hr], wireText_short errmsg⟩
  · intro he
    subst he
    have hs := sendResponse_reply R w replyv' q n hw hq
    rw [hs]
    simp [hwb]

/-- C8 witness: the handler `Boom` of the receiver of the example, which
returns `errors.New("boom")`, and the handler `Ping`, which returns nil. -/
theorem handler_error_verbatim_witness :
    ((pingService.call pingReflect (serverStream []) mtypeBoom (.Request { Data := [1] })
        (.Response { Data := [] })).sendBuf
        = PutUint32 (wireText (str "boom")).length ++ wireText (str "boom") ∧
      (Client.Call.readResponse (answeredStream (pingService.call pingReflect (serverStream [])
        mtypeBoom (.Request { Data := [1] }) (.Response { Data := [] })).sendBuf)
        pingReply { Data := [] }).1 = some (errorsNew (wireText (str "boom"))) ∧
      ((str "boom").length ≤ MaxUint32 → wireText (str "boom") = str "boom")) ∧
    ((pingService.call pingReflect (serverStream []) mtypePing (.Request { Data := [1] })
        (.Response { Data := [] })).sendBuf = [] ∧
      (pingService.call pingReflect (serverStream []) mtypePing (.Request { Data := [1] })
        (.Response { Data := [] })).sent = [] ++ (PutUint32 0 ++ (PutUint64 (uint64 1) ++ [1]))) :=
  ⟨(handler_error_verbatim pingReflect pingService (serverStream [])
      (answeredStream (pingService.call pingReflect (serverStream [])
        mtypeBoom (.Request { Data := [1] }) (.Response { Data := [] })).sendBuf)
      mtypeBoom (.Request { Data := [1] }) (.Response { Data := [] }) (.Response { Data := [] })
      (some (errorsNew (str "boom"))) (str "boom") pingReply { Data := [] }
      (PutUint64 (uint64 0) ++ []) 2 (fun _ => rfl) rfl rfl rfl
      (fun s hs => PingResponse_WriteToShm_ok { Data := [] } s hs) (fun _ => rfl) rfl).1
      (by decide),
   (handler_error_verbatim pingReflect pingService (serverStream [])
      (answeredStream [])
      mtypePing (.Request { Data := [1] }) (.Response { Data := [] }) (.Response { Data := [1] })
      none [] pingReply { Data := [] }
      (PutUint64 (uint64 1) ++ [1]) 2 (fun _ => rfl) rfl rfl rfl
      (fun s hs => PingResponse_WriteToShm_ok { Data := [1] } s hs) (fun _ => rfl)
      (by decide)).2 rfl⟩

/-! ## C9 -/

/-- C9, evaluated on a freshly created client, for every behaviour of the
transport, every method name, argument and reply: `Call` returns, and it
returns with the lock still held; a `Close` or a further `Call` on the client
then never returns. -/
theorem Call_returns_with_mutex_held {ρ : Type} (smgr : SessionManager) (m : GoString)
    (args : ShmWriter) (R : ShmReader ρ) (reply : ρ) :
    ∃ res, Client.Call { smgr := smgr, mutex := false, closing := false, shutdown := false }
        m args R reply = some res ∧
      res.client.mutex = true ∧ res.client.Close = none ∧
      Client.Call res.client m args R reply = none := by
  obtain ⟨res, h1, hm, _, _, _⟩ := Call_open
    { smgr := smgr, mutex := false, closing := false, shutdown := false } m args R reply
    rfl rfl rfl
  exact ⟨res, h1, hm, Close_locked _ hm, Call_locked _ _ _ _ _ hm⟩

/-! ## C10 -/

/-- C10, evaluated on a freshly created client, for every behaviour of the
transport: the first `Call` asks for a stream once and, when it got one, puts
that stream back once, after which the client is still open; the second `Call`
on it never returns, so it asks for no stream at all. -/
theorem second_Call_leases_nothing {ρ : Type} (smgr : SessionManager) (m : GoString)
    (args : ShmWriter) (R : ShmReader ρ) (reply : ρ) :
    ∃ res, Client.Call { smgr := smgr, mutex := false, closing := false, shutdown := false }
        m args R reply = some res ∧
      res.client.smgr.log = smgr.log ++
        (match smgr.getStream (smgr.log.count .GetStream) with
         | .ok s => [.GetStream, .PutBack s.id]
         | .error _ => [.GetStream]) ∧
      res.client.closing = false ∧ res.client.shutdown = false ∧
      (Client.Call res.client m args R reply).isNone = true := by
  obtain ⟨res, h1, hm, hc, hs, hlog⟩ := Call_open
    { smgr := smgr, mutex := false, closing := false, shutdown := false } m args R reply
    rfl rfl rfl
  exact ⟨res, h1, hlog, hc, hs, by rw [Call_locked _ _ _ _ _ hm]; rfl⟩

/-! ## C11 -/

/-- C11 counterexample: `RegisterName("ping", &Service{})` on a new server. The
name starts with a lower-case letter and is not an exported identifier, yet the
registration returns nil and the service is in the registry under that name. -/
theorem RegisterName_lower_case_accepted :
    pingReflect.IsExported (str "ping") = false ∧
    (Server.RegisterName pingReflect (NewServer PingValue) (str "ping") .Service).1 = none ∧
    ((Server.RegisterName pingReflect (NewServer PingValue) (str "ping")
      .Service).2.serviceMap.get (str "ping")).isSome = true := by
  decide

/-- C11, amended: for every receiver, `Register` returns an error and leaves
the registry unchanged whenever the receiver's type name is empty or not an
exported identifier; `RegisterName` returns an error and leaves the registry
unchanged when the supplied name is empty, and applies no export check to the
supplied name: for every name that is not empty and not registered yet, and a
receiver with at least one qualifying method, it returns nil and stores the
receiver with its method table under that name, whether or not the name is an
exported identifier. -/
theorem registration_name_check {V : Type} (R : Reflect V) (server : Server V) (rcvr : V) :
    ((R.TypeOf rcvr).Indirect.Name = [] →
      server.Register R rcvr =
        (some (errorsNew (str "rpc.Register: no service name for type " ++ (R.TypeOf rcvr).String)),
          server)) ∧
    ((R.TypeOf rcvr).Indirect.Name ≠ [] → R.IsExported (R.TypeOf rcvr).Indirect.Name = false →
      server.Register R rcvr =
        (some (errorsNew (str "rpc.Register: type " ++ (R.TypeOf rcvr).Indirect.Name ++
          str " is not exported")), server)) ∧
    server.RegisterName R [] rcvr =
      (some (errorsNew (str "rpc.Register: no service name for type " ++ (R.TypeOf rcvr).String)),
        server) ∧
    (∀ name : GoString, name ≠ [] → (suitableMethods R (R.TypeOf rcvr)).length ≠ 0 →
      server.serviceMap.get name = none →
      server.RegisterName R name rcvr =
        (none, ⟨server.serviceMap.set name
          ⟨name, rcvr, R.TypeOf rcvr, suitableMethods R (R.TypeOf rcvr)⟩⟩) ∧
      (server.RegisterName R name rcvr).2.serviceMap.get name =
        some ⟨name, rcvr, R.TypeOf rcvr, suitableMethods R (R.TypeOf rcvr)⟩) := by
  refine ⟨?_, ?_, ?_, ?_⟩
  · intro h
    simp [Server.Register, Server.register, h]
  · intro h hx
    simp [Server.Register, Server.register, h, hx]
  · simp [Server.RegisterName, Server.register]
  · intro name hn hq hfree
    have hreg : server.RegisterName R name rcvr =
        (none, ⟨server.serviceMap.set name
          ⟨name, rcvr, R.TypeOf rcvr, suitableMethods R (R.TypeOf rcvr)⟩⟩) := by
      simp [Server.RegisterName, Server.register, hn, hq, hfree]
    exact ⟨hreg, by rw [hreg]; exact GoMap_get_set _ _ _⟩

/-- C11 witness: `Register(&service{})` for the unexported receiver type
`service`, `RegisterName("", &service{})`, and `RegisterName("ping", &Service{})`
with a name that is not an exported identifier. -/
theorem registration_name_check_witness :
    (Server.Register lowerReflect (NewServer PingValue) .Service =
      (some (errorsNew (str "rpc.Register: type " ++
        (lowerReflect.TypeOf PingValue.Service).Indirect.Name ++ str " is not exported")),
        NewServer PingValue)) ∧
    (Server.RegisterName lowerReflect (NewServer PingValue) [] .Service =
      (some (errorsNew (str "rpc.Register: no service name for type " ++
        (lowerReflect.TypeOf PingValue.Service).String)), NewServer PingValue)) ∧
    pingReflect.IsExported (str "ping") = false ∧
    (Server.RegisterName pingReflect (NewServer PingValue) (str "ping") .Service =
        (none, ⟨(NewServer PingValue).serviceMap.set (str "ping")
          ⟨str "ping", .Service, pingReflect.TypeOf .Service,
            suitableMethods pingReflect (pingReflect.TypeOf .Service)⟩⟩) ∧
      (Server.RegisterName pingReflect (NewServer PingValue) (str "ping")
        .Service).2.serviceMap.get (str "ping") =
        some ⟨str "ping", .Service, pingReflect.TypeOf .Service,
          suitableMethods pingReflect (pingReflect.TypeOf .Service)⟩) :=
  ⟨(registration_name_check lowerReflect (NewServer PingValue) .Service).2.1 (by decide)
      (by decide),
   (registration_name_check lowerReflect (NewServer PingValue) .Service).2.2.1,
   by decide,
   (registration_name_check pingReflect (NewServer PingValue) .Service).2.2.2 (str "ping")
      (by decide) (by decide) rfl⟩

/-! ## C12 -/

theorem str_ill_formed_length :
    (str "rpc: service/method request ill-formed: ").length = 40 := by decide

/-- C12 counterexample: the service is registered as "pkg.Service" and the
request names "pkg.Service.Ping", an identifier with two separators; it is
resolved (service "pkg.Service", method "Ping") and answered with the reply,
not rejected. -/
theorem identifier_with_two_dots_resolves :
    (str "pkg.Service.Ping").count dotByte = 2 ∧
    (dottedServer.serviceMap.get (str "pkg.Service")).isSome = true ∧
    ((Server.readRequest pingReflect dottedServer (serverStream
      (requestFrame (str "pkg.Service.Ping") (PutUint64 1 ++ [1])))).1.toOption.map
        (fun q => (q.1.name, q.2.1.method.Name))) = some (str "pkg.Service", str "Ping") ∧
    remote pingReflect dottedServer (requestFrame (str "pkg.Service.Ping") (PutUint64 1 ++ [1]))
      = PutUint32 0 ++ PutUint64 1 ++ [1] := by
  decide

/-- C12, amended: `readRequest` splits the identifier at its last '.', the
service being the text before it and the method the text after it. (1) An
identifier with no '.' is rejected with the error
"rpc: service/method request ill-formed: " + identifier, and `ServeStream`
writes the frame of that error as the response. (2) An identifier
`pre ++ "." ++ post` with no '.' in `post`, however many there are in `pre`, is
resolved to the service registered as `pre` and its method `post` when both
exist and the argument decodes. (3) Whenever `readRequest` resolves an
identifier to a service and a method, the identifier is such a
`pre ++ "." ++ post`, with the service registered as `pre` and the method as
`post` in its table. -/
theorem identifier_split_at_last_dot {V : Type} (R : Reflect V) (server : Server V) (r : Stream)
    (ident payload : List Byte) (hr : r.reliable) (hw : r.sendBuf = [])
    (hlen : ident.length < 65536) (hbuf : r.recvBuf = requestFrame ident payload) :
    (dotByte ∉ ident →
      (server.readRequest R r).1 =
        .error (errorsNew (str "rpc: service/method request ill-formed: " ++ ident)) ∧
      (server.ServeStream R r).sendBuf =
        PutUint32 (str "rpc: service/method request ill-formed: " ++ ident).length ++
          (str "rpc: service/method request ill-formed: " ++ ident)) ∧
    (∀ (pre post : GoString) (svc : service V) (mtype : methodType V) (argv : V) (r' : Stream),
      ident = pre ++ dotByte :: post → dotByte ∉ post →
      server.serviceMap.get pre = some svc → svc.method.get post = some mtype →
      R.ReadFromShm (if mtype.ArgType.isPointer then R.New mtype.ArgType.Elem
          else R.New mtype.ArgType) { r with recvBuf := payload, ops := r.ops + 2 }
        = (none, argv, r') →
      server.readRequest R r =
        (.ok (svc, mtype, (if !mtype.ArgType.isPointer then R.Elem argv else argv),
          R.New mtype.ReplyType.Elem), r')) ∧
    (∀ (svc : service V) (mtype : methodType V) (argv replyv : V),
      (server.readRequest R r).1 = .ok (svc, mtype, argv, replyv) →
      ∃ pre post, ident = pre ++ dotByte :: post ∧ dotByte ∉ post ∧
        server.serviceMap.get pre = some svc ∧ svc.method.get post = some mtype) := by
  have hz : ident.length % 65536 = ident.length := Nat.mod_eq_of_lt hlen
  have hf := serviceMethod_frame r ident payload hr hbuf
  rw [hz, List.take_length, List.drop_length, List.nil_append] at hf
  refine ⟨?_, ?_, ?_⟩
  · intro hno
    have hd : LastIndex ident dotByte < 0 := by rw [LastIndex_not_mem ident dotByte hno]; decide
    have hread : server.readRequest R r =
        (.error (errorsNew (str "rpc: service/method request ill-formed: " ++ ident)),
          { r with recvBuf := payload, ops := r.ops + 2 }) := by
      simp only [Server.readRequest, hf, hd, if_true]
    have hne : (errorsNew (str "rpc: service/method request ill-formed: " ++ ident)).Error ≠ [] := by
      intro h
      have := congrArg List.length h
      simp [errorsNew, GoError.Error, str_ill_formed_length] at this
    have hle : (str "rpc: service/method request ill-formed: " ++ ident).length ≤ MaxUint32 := by
      simp [str_ill_formed_length, MaxUint32]; omega
    refine ⟨by rw [hread], ?_⟩
    rw [ServeStream_error_unflushed R server r _ _ hread hr hne]
    simp [errorsNew, GoError.Error, wireText_short _ hle, hw]
  · intro pre post svc mtype argv r' hid hpost hsvc hm hdec
    have hl : LastIndex ident dotByte = pre.length := by
      rw [hid]; exact LastIndex_last pre post dotByte hpost
    have hnd : ¬ (LastIndex ident dotByte < 0) := by rw [hl]; omega
    have htake : ident.take (LastIndex ident dotByte).toNat = pre := by
      rw [hl, hid]; simp
    have hdrop : ident.drop (LastIndex ident dotByte + 1).toNat = post := by
      rw [hl, hid]
      have : ((pre.length : Int) + 1).toNat = pre.length + 1 := by omega
      rw [this]
      simp
    simp only [Server.readRequest, hf, hnd, if_false, htake, hdrop, hsvc, hm]
    cases hp : mtype.ArgType.isPointer <;> simp [hp] at hdec ⊢ <;> rw [hdec]
  · intro svc mtype argv replyv hok
    by_cases hd : LastIndex ident dotByte < 0
    · simp [Server.readRequest, hf, hd] at hok
    · obtain ⟨pre, post, hid, hpost, hl⟩ := LastIndex_split ident dotByte (by omega)
      have htake : ident.take (LastIndex ident dotByte).toNat = pre := by
        rw [hl, hid]; simp
      have hdrop : ident.drop (LastIndex ident dotByte + 1).toNat = post := by
        rw [hl, hid]
        have : ((pre.length : Int) + 1).toNat = pre.length + 1 := by omega
        rw [this]
        simp
      refine ⟨pre, post, hid, hpost, ?_⟩
      simp only [Server.readRequest, hf, hd, if_false, htake, hdrop] at hok
      cases hs : server.serviceMap.get pre with
      | none => simp [hs] at hok
      | some svc0 =>
        simp only [hs] at hok
        cases hmm : svc0.method.get post with
        | none => simp [hmm] at hok
        | some mtype0 =>
          simp only [hmm] at hok
          split at hok
          · simp at hok
          · simp only [Except.ok.injEq, Prod.mk.injEq] at hok
            obtain ⟨h1, h2, _, _⟩ := hok
            subst h1; subst h2
            exact ⟨rfl, hmm⟩

/-- C12 witness: the request "Ping" to the server of the example, and the
request "pkg.Service.Ping" to the server with the service registered as
"pkg.Service". -/
theorem identifier_split_at_last_dot_witness :
    ((Server.readRequest pingReflect pingServer
        (serverStream (requestFrame (str "Ping") []))).1 =
        .error (errorsNew (str "rpc: service/method request ill-formed: " ++ str "Ping")) ∧
      (Server.ServeStream pingReflect pingServer
        (serverStream (requestFrame (str "Ping") []))).sendBuf =
        PutUint32 (str "rpc: service/method request ill-formed: " ++ str "Ping").length ++
          (str "rpc: service/method request ill-formed: " ++ str "Ping")) ∧
    (Server.readRequest pingReflect dottedServer
        (serverStream (requestFrame (str "pkg.Service.Ping") (PutUint64 1 ++ [1]))) =
      (.ok (dottedService, mtypePing,
          (if !mtypePing.ArgType.isPointer then pingReflect.Elem (.Request { Data := [1] })
            else .Request { Data := [1] }),
          pingReflect.New mtypePing.ReplyType.Elem),
        { serverStream (requestFrame (str "pkg.Service.Ping") (PutUint64 1 ++ [1])) with
          recvBuf := [], ops := 4 })) ∧
    (∃ pre post, str "pkg.Service.Ping" = pre ++ dotByte :: post ∧ dotByte ∉ post ∧
      dottedServer.serviceMap.get pre = some dottedService ∧
      dottedService.method.get post = some mtypePing) := by
  have h2 := (identifier_split_at_last_dot pingReflect dottedServer
      (serverStream (requestFrame (str "pkg.Service.Ping") (PutUint64 1 ++ [1])))
      (str "pkg.Service.Ping") (PutUint64 1 ++ [1]) (fun _ => rfl) rfl (by decide) rfl).2.1
      (str "pkg.Service") (str "Ping") dottedService mtypePing (.Request { Data := [1] })
      { serverStream (requestFrame (str "pkg.Service.Ping") (PutUint64 1 ++ [1])) with
        recvBuf := [], ops := 4 }
      rfl (by decide) rfl rfl (by rfl)
  exact ⟨(identifier_split_at_last_dot pingReflect pingServer
      (serverStream (requestFrame (str "Ping") [])) (str "Ping") [] (fun _ => rfl) rfl
      (by decide) rfl).1 (by decide), h2,
    (identifier_split_at_last_dot pingReflect dottedServer
      (serverStream (requestFrame (str "pkg.Service.Ping") (PutUint64 1 ++ [1])))
      (str "pkg.Service.Ping") (PutUint64 1 ++ [1]) (fun _ => rfl) rfl (by decide) rfl).2.2
      dottedService mtypePing (.Request { Data := [1] }) (.Response { Data := [] })
      (by rw [h2]; rfl)⟩

end Rpc
